import Mathlib

/-!
Verification development for a credit-card statement text-extraction engine.

The engine (Python) consists of: a generic pattern matcher (`find_pattern`,
built on `re.search` with IGNORECASE|DOTALL and a transaction scanner built on
`re.finditer`), an issuer detector (`detect_issuer`), five per-issuer grammars
(`parse_hdfc`, `parse_icici`, `parse_axis`, `parse_chase`, `parse_idfc`), and
two normalizers (`clean_amount`, `normalize_date`).

We embed the regular-expression dialect actually used by the source as a small
AST (`Rx`) with a fueled backtracking matcher (`matchRx`) that returns the
list of all (captures, rest) alternatives in Python's backtracking priority
order: the head of the list is the match Python's engine reports.  Literals
and classes are matched case-insensitively, mirroring the IGNORECASE flag on
every `re.search`/`re.finditer` call in the source (for the detector the text
is uppercased first, as in the source, which gives the same results).  The dot
is modelled as "any character" mirroring DOTALL.  Character classes (`\d`,
`\s`, `\w`) are modelled over ASCII, which covers the statement texts the
grammars target.
-/

namespace CCStmt

set_option maxRecDepth 1000000

/-- ASCII whitespace, as stripped by Python `str.strip()` and matched by `\s`. -/
def isSp (c : Char) : Bool :=
  c == ' ' || c == '\t' || c == '\n' || c == '\r' || c == '\x0b' || c == '\x0c'

/-- Python `str.strip()` on a character list: drop whitespace from both ends. -/
def stripL (l : List Char) : List Char :=
  ((l.dropWhile isSp).reverse.dropWhile isSp).reverse

/-- Python `str.strip()` on a string. -/
def pyStrip (s : String) : String :=
  String.mk (stripL s.data)

/-- Python `str.lower()` (ASCII case mapping, which covers the marker and
signature letters involved). -/
def lowerS (s : String) : String := String.mk (s.data.map Char.toLower)

/-- Python `str.upper()` (ASCII case mapping). -/
def upperS (s : String) : String := String.mk (s.data.map Char.toUpper)

/-- ASCII decimal digit, the `\d` class of the source patterns. -/
def isDigitB (c : Char) : Bool :=
  48 ≤ c.toNat && c.toNat ≤ 57

/-- ASCII word character, the `\w` class of the source patterns. -/
def isWordB (c : Char) : Bool :=
  isDigitB c || (65 ≤ c.toNat && c.toNat ≤ 90) || (97 ≤ c.toNat && c.toNat ≤ 122) || c == '_'

/-- The regular-expression dialect used by the source, as an AST.
`rep lo hi lz a` is `a{lo,hi}` (`hi = none` for unbounded), `lz = true` for a
lazy (minimal) repetition.  `grp n a` is capture group `n`.  `assertEnd` is
`$` without MULTILINE: end of input or a final lone newline. -/
inductive Rx where
  | eps : Rx
  | cls : (Char → Bool) → Rx
  | seq : Rx → Rx → Rx
  | alt : Rx → Rx → Rx
  | rep : Nat → Option Nat → Bool → Rx → Rx
  | grp : Nat → Rx → Rx
  | assertEnd : Rx

/-- Captured groups of one match: group number paired with captured characters. -/
abbrev Caps := List (Nat × List Char)

/-- Structural size of a pattern, used only to pick a generous fuel bound. -/
def rxSize : Rx → Nat
  | .eps => 1
  | .cls _ => 1
  | .seq a b => rxSize a + rxSize b + 1
  | .alt a b => rxSize a + rxSize b + 1
  | .rep _ _ _ a => rxSize a + 1
  | .grp _ a => rxSize a + 1
  | .assertEnd => 1

/-- Backtracking matcher.  `matchRx fuel r s` returns every way `r` can match
a prefix of `s`, as `(captures, rest)` pairs, in the priority order of a
Python-style backtracking engine (head = the reported match).  Fuel bounds the
recursion depth; every entry point uses a fuel that exceeds any reachable
depth, so the fuel never cuts off a real alternative there. -/
def matchRx : Nat → Rx → List Char → List (Caps × List Char)
  | 0, _, _ => []
  | _ + 1, .eps, s => [([], s)]
  | _ + 1, .cls _, [] => []
  | _ + 1, .cls p, c :: t => if p c then [([], t)] else []
  | f + 1, .seq a b, s =>
      (matchRx f a s).flatMap fun x =>
        (matchRx f b x.2).map fun y => (y.1 ++ x.1, y.2)
  | f + 1, .alt a b, s => matchRx f a s ++ matchRx f b s
  | f + 1, .grp n a, s =>
      (matchRx f a s).map fun x => ((n, s.take (s.length - x.2.length)) :: x.1, x.2)
  | _ + 1, .assertEnd, s => if s = [] ∨ s = ['\n'] then [([], s)] else []
  | f + 1, .rep lo hi lz a, s =>
      match hi with
      | some 0 => if lo = 0 then [([], s)] else []
      | some (m + 1) =>
          let base := if lo = 0 then [(([] : Caps), s)] else []
          let step := (matchRx f a s).flatMap fun x =>
            (matchRx f (.rep (lo - 1) (some m) lz a) x.2).map fun y => (y.1 ++ x.1, y.2)
          if lz then base ++ step else step ++ base
      | none =>
          let base := if lo = 0 then [(([] : Caps), s)] else []
          let step := (matchRx f a s).flatMap fun x =>
            (matchRx f (.rep (lo - 1) none lz a) x.2).map fun y => (y.1 ++ x.1, y.2)
          if lz then base ++ step else step ++ base

/-- Fuel used for a whole-document scan of pattern `r` over text `s`:
comfortably larger than the recursion depth any match attempt can reach. -/
def fuelFor (r : Rx) (s : List Char) : Nat :=
  (rxSize r + 2) * (s.length + 2)

/-- Leftmost search: try to match at each position in document order and
return the captures of the first position that matches (Python `re.search`). -/
def searchAux (fuel : Nat) (r : Rx) : List Char → Option Caps
  | [] =>
      match matchRx fuel r [] with
      | x :: _ => some x.1
      | [] => none
  | c :: t =>
      match matchRx fuel r (c :: t) with
      | x :: _ => some x.1
      | [] => searchAux fuel r t

/-- `re.search(pattern, text)` returning the match's captures. -/
def rxSearch (r : Rx) (s : List Char) : Option Caps :=
  searchAux (fuelFor r s) r s

/-- The source's `find_pattern(text, pattern, group)`: leftmost search with
IGNORECASE|DOTALL, then `match.group(group).strip()`, or `None` when there is
no match.  (In every call in the source the requested group participates in
any successful match, so the group lookup never fails there.) -/
def find_pattern (text : String) (r : Rx) (g : Nat) : Option String :=
  ((rxSearch r text.data).bind fun c => c.lookup g).map fun l => String.mk (stripL l)

/-- One step list for `re.finditer`: scan positions left to right, emit the
match at the first position that matches, continue after its end (advancing
one character after an empty match), collecting all capture records. -/
def finditerAux (fuel : Nat) (r : Rx) : Nat → List Char → List Caps
  | 0, _ => []
  | _ + 1, [] =>
      match matchRx fuel r [] with
      | x :: _ => [x.1]
      | [] => []
  | k + 1, c :: t =>
      match matchRx fuel r (c :: t) with
      | x :: _ =>
          if x.2.length < (c :: t).length then x.1 :: finditerAux fuel r k x.2
          else x.1 :: finditerAux fuel r k t
      | [] => finditerAux fuel r k t

/-- `re.finditer(pattern, text)`: the capture records of all non-overlapping
matches in document order. -/
def finditer (r : Rx) (s : List Char) : List Caps :=
  finditerAux (fuelFor r s) r (s.length + 1) s

/-- The opposite-case partner of an ASCII letter (other characters are
their own partner). -/
def caseFlip (c : Char) : Char :=
  if c.isUpper then c.toLower else if c.isLower then c.toUpper else c

/-- Case-insensitive single literal character: matches the character itself
or its opposite-case partner (IGNORECASE over ASCII). -/
def rchar (c : Char) : Rx :=
  .cls fun d => d == c || d == caseFlip c

/-- Case-insensitive literal string (IGNORECASE semantics of the source). -/
def rstr (s : String) : Rx :=
  s.data.foldr (fun c acc => .seq (rchar c) acc) .eps

/-- Sequence of patterns. -/
def rseq (l : List Rx) : Rx :=
  l.foldr .seq .eps

/-- `\s+` (greedy). -/
def ws1 : Rx := .rep 1 none false (.cls isSp)

/-- `\s*` (greedy). -/
def ws0 : Rx := .rep 0 none false (.cls isSp)

/-- `\d{m,n}` (greedy). -/
def digits (m n : Nat) : Rx := .rep m (some n) false (.cls isDigitB)

/-- `X?` (greedy optional). -/
def ropt (a : Rx) : Rx := .rep 0 (some 1) false a

/-- `.*?` under DOTALL: lazy run of arbitrary characters. -/
def lazyAny : Rx := .rep 0 none true (.cls fun _ => true)

/-- `[\d,]` class. -/
def isDigitCommaB (c : Char) : Bool := isDigitB c || c == ','

/-- `[A-Z0-9 ,.&\-\/]` with IGNORECASE: the merchant-description class of the
transaction patterns. -/
def isDescB (c : Char) : Bool :=
  (65 ≤ c.toNat && c.toNat ≤ 90) || (97 ≤ c.toNat && c.toNat ≤ 122) ||
    isDigitB c || c == ' ' || c == ',' || c == '.' || c == '&' || c == '-' || c == '/'

/-- The dash-or-slash class of the ICICI date tokens. -/
def isDashSlashB (c : Char) : Bool := c == '-' || c == '/'

/-- `\d{1,2}/\d{1,2}/\d{4}` (HDFC, AXIS, IDFC date token). -/
def dateDMY : Rx := rseq [digits 1 2, rchar '/', digits 1 2, rchar '/', digits 4 4]

/-- `\d{1,2}/\d{1,2}/\d{2,4}` (CHASE header dates). -/
def dateD24 : Rx := rseq [digits 1 2, rchar '/', digits 1 2, rchar '/', digits 2 4]

/-- `\d{1,2}/\d{1,2}` (CHASE transaction date, no year). -/
def chaseDateRx : Rx := rseq [digits 1 2, rchar '/', digits 1 2]

/-- `\d{1,2}` dash-or-slash `\w+` dash-or-slash `\d{4}` (ICICI date token). -/
def iciciDateRx : Rx :=
  rseq [digits 1 2, .cls isDashSlashB, .rep 1 none false (.cls isWordB),
    .cls isDashSlashB, digits 4 4]

/-- `[\d,]+\.?\d*` (loose amount capture of several total-due patterns). -/
def numLoose : Rx :=
  rseq [.rep 1 none false (.cls isDigitCommaB), ropt (rchar '.'),
    .rep 0 none false (.cls isDigitB)]

/-- `(?:,\d{3})*`. -/
def commaGroups : Rx := .rep 0 none false (.seq (rchar ',') (digits 3 3))

/-- `-?\d{1,3}(?:,\d{3})*(?:\.\d{2})` (transaction amount capture). -/
def amountRx : Rx :=
  rseq [ropt (rchar '-'), digits 1 3, commaGroups, rchar '.', digits 2 2]

/-- `[A-Z0-9 ,.&\-\/]+?` (lazy merchant-description run). -/
def descLazy : Rx := .rep 1 none true (.cls isDescB)

/-- `\d{1,2}/\d{1,2}/\d{4}\s*-\s*\d{1,2}/\d{1,2}/\d{4}` (date range). -/
def dmyRange : Rx := rseq [dateDMY, ws0, rchar '-', ws0, dateDMY]

/- Issuer signatures (detect_issuer.py: searched on the uppercased text). -/

def sigHdfcRx : Rx := rseq [rstr "HDFC", ws1, rstr "BANK"]
def sigIciciRx : Rx := rseq [rstr "ICICI", ws1, rstr "BANK"]
def sigAxisRx : Rx := rseq [rstr "AXIS", ws1, rstr "BANK"]
def sigChaseRx : Rx := rseq [rstr "CHASE", ws1, rstr "BANK"]
def sigJpmRx : Rx := rseq [rstr "JPMORGAN", ws1, rstr "CHASE"]
def sigIdfcFirstRx : Rx := rseq [rstr "IDFC", ws1, rstr "FIRST", ws1, rstr "BANK"]
def sigIdfcRx : Rx := rseq [rstr "IDFC", ws1, rstr "BANK"]

/- HDFC grammar patterns (hdfc.py). -/

/-- `Card\s+No:\s*(\d{4})`. -/
def hdfcCardRx : Rx := rseq [rstr "Card", ws1, rstr "No:", ws0, .grp 1 (digits 4 4)]

/-- `Statement\s+Date:\s*(\d{1,2}/\d{1,2}/\d{4})`. -/
def hdfcStmtDateRx : Rx :=
  rseq [rstr "Statement", ws1, rstr "Date:", ws0, .grp 1 dateDMY]

/-- `Statement\s+for\s+.*?(\d{2}/\d{4})`. -/
def hdfcStmtMonthRx : Rx :=
  rseq [rstr "Statement", ws1, rstr "for", ws1, lazyAny,
    .grp 1 (rseq [digits 2 2, rchar '/', digits 4 4])]

/-- `Payment\s+Due\s+Date\s+Total\s+Dues\s+Minimum\s+Amount\s+Due` header. -/
def hdfcHeaderRx : Rx :=
  rseq [rstr "Payment", ws1, rstr "Due", ws1, rstr "Date", ws1, rstr "Total", ws1,
    rstr "Dues", ws1, rstr "Minimum", ws1, rstr "Amount", ws1, rstr "Due"]

/-- Header then `.*?(\d{1,2}/\d{1,2}/\d{4})`. -/
def hdfcDueRx : Rx := rseq [hdfcHeaderRx, lazyAny, .grp 1 dateDMY]

/-- Header then `.*?\d{1,2}/\d{1,2}/\d{4}\s+([\d,]+\.?\d*)`. -/
def hdfcTotRx : Rx := rseq [hdfcHeaderRx, lazyAny, dateDMY, ws1, .grp 1 numLoose]

/-- `Total\s+Dues[^\d]*(\d{1,3}(?:,\d{3})*(?:\.\d{2})?)`. -/
def hdfcTotAltRx : Rx :=
  rseq [rstr "Total", ws1, rstr "Dues", .rep 0 none false (.cls fun c => !isDigitB c),
    .grp 1 (rseq [digits 1 3, commaGroups, ropt (rseq [rchar '.', digits 2 2])])]

/-- Everything of the HDFC/AXIS transaction pattern after the date group:
`\s+([A-Z0-9 ,.&\-\/]+?)\s+(-?\d{1,3}(?:,\d{3})*(?:\.\d{2}))\s*(Cr|Dr)?`. -/
def markedTxRest : Rx :=
  rseq [ws1, .grp 2 descLazy, ws1, .grp 3 amountRx, ws0,
    ropt (.grp 4 (.alt (rstr "Cr") (rstr "Dr")))]

/-- `(\d{1,2}/\d{1,2}/\d{4})\s+([A-Z0-9 ,.&\-\/]+?)\s+(-?\d{1,3}(?:,\d{3})*(?:\.\d{2}))\s*(Cr|Dr)?`. -/
def hdfcTxRx : Rx := .seq (.grp 1 dateDMY) markedTxRest

/- AXIS grammar patterns (axis.py). -/

/-- `(?:Credit\s+Card\s+Number|Card\s+No:)\s*\d+\*+(\d{4})`. -/
def axisCardRx : Rx :=
  rseq [.alt (rseq [rstr "Credit", ws1, rstr "Card", ws1, rstr "Number"])
      (rseq [rstr "Card", ws1, rstr "No:"]),
    ws0, .rep 1 none false (.cls isDigitB), .rep 1 none false (.cls fun c => c == '*'),
    .grp 1 (digits 4 4)]

/-- `Statement\s+Period.*?(\d{1,2}/\d{1,2}/\d{4}\s*-\s*\d{1,2}/\d{1,2}/\d{4})`. -/
def axisBillRx : Rx := rseq [rstr "Statement", ws1, rstr "Period", lazyAny, .grp 1 dmyRange]

/-- `Payment\s+Due\s+Date.*?` range `\s+(\d{1,2}/\d{1,2}/\d{4})`. -/
def axisDueRx : Rx :=
  rseq [rstr "Payment", ws1, rstr "Due", ws1, rstr "Date", lazyAny,
    dateDMY, ws0, rchar '-', ws0, dateDMY, ws1, .grp 1 dateDMY]

/-- `Total\s+Payment\s+Due\s+Minimum\s+Payment\s+Due.*?\s+([\d,]+\.?\d*)\s+Dr`. -/
def axisTotRx : Rx :=
  rseq [rstr "Total", ws1, rstr "Payment", ws1, rstr "Due", ws1, rstr "Minimum",
    ws1, rstr "Payment", ws1, rstr "Due", lazyAny, ws1, .grp 1 numLoose, ws1, rstr "Dr"]

/-- The AXIS transaction pattern string is identical to the HDFC one. -/
def axisTxRx : Rx := .seq (.grp 1 dateDMY) markedTxRest

/- CHASE grammar patterns (chase.py). -/

/-- `Account\s+Number.*?(\d{4})`. -/
def chaseCardRx : Rx := rseq [rstr "Account", ws1, rstr "Number", lazyAny, .grp 1 (digits 4 4)]

/-- `(?:Opening/Closing\s+Date|Statement\s+Period)\s+(range of \d{1,2}/\d{1,2}/\d{2,4})`. -/
def chaseBillRx : Rx :=
  rseq [.alt (rseq [rstr "Opening/Closing", ws1, rstr "Date"])
      (rseq [rstr "Statement", ws1, rstr "Period"]),
    ws1, .grp 1 (rseq [dateD24, ws0, rchar '-', ws0, dateD24])]

/-- `Payment\s+Due\s+Date\s+(\d{1,2}/\d{1,2}/\d{2,4})`. -/
def chaseDueRx : Rx :=
  rseq [rstr "Payment", ws1, rstr "Due", ws1, rstr "Date", ws1, .grp 1 dateD24]

/-- `(?:New\s+Balance|Total\s+Payment\s+Due)\s+\$?([\d,]+\.\d{2})`. -/
def chaseTotRx : Rx :=
  rseq [.alt (rseq [rstr "New", ws1, rstr "Balance"])
      (rseq [rstr "Total", ws1, rstr "Payment", ws1, rstr "Due"]),
    ws1, ropt (rchar '$'),
    .grp 1 (rseq [.rep 1 none false (.cls isDigitCommaB), rchar '.', digits 2 2])]

/-- Tail of the unmarked transaction patterns (CHASE, ICICI, IDFC):
`\s+([A-Z0-9 ,.&\-\/]+?)\s+(-?\d{1,3}(?:,\d{3})*(?:\.\d{2}))`. -/
def plainTxRest : Rx := rseq [ws1, .grp 2 descLazy, ws1, .grp 3 amountRx]

/-- `(\d{1,2}/\d{1,2})\s+([A-Z0-9 ,.&\-\/]+?)\s+(-?\d{1,3}(?:,\d{3})*(?:\.\d{2}))`. -/
def chaseTxRx : Rx := .seq (.grp 1 chaseDateRx) plainTxRest

/- ICICI grammar patterns (icici.py). -/

/-- `(?:card\s+(?:number|no\.?):?.*?)(\d{4})(?:\s|$|\.)`. -/
def iciciCardRx : Rx :=
  rseq [rstr "card", ws1, .alt (rstr "number") (rseq [rstr "no", ropt (rchar '.')]),
    ropt (rchar ':'), lazyAny, .grp 1 (digits 4 4),
    .alt (.cls isSp) (.alt .assertEnd (rchar '.'))]

/-- `(?:statement\s+period:?\s*)(date `\s+(?:to|-)\s+` date)`. -/
def iciciBillRx : Rx :=
  rseq [rstr "statement", ws1, rstr "period", ropt (rchar ':'), ws0,
    .grp 1 (rseq [iciciDateRx, ws1, .alt (rstr "to") (rchar '-'), ws1, iciciDateRx])]

/-- `(?:due\s+date:?\s*)` followed by a captured ICICI date token. -/
def iciciDueRx : Rx :=
  rseq [rstr "due", ws1, rstr "date", ropt (rchar ':'), ws0, .grp 1 iciciDateRx]

/-- `(?:total\s+amount\s+due:?\s*)((?:â‚¹|Rs\.?)\s*[\d,]+\.?\d*)` —
note the mojibake three-character sequence from the source file. -/
def iciciTotRx : Rx :=
  rseq [rstr "total", ws1, rstr "amount", ws1, rstr "due", ropt (rchar ':'), ws0,
    .grp 1 (rseq [.alt (rstr "â‚¹") (rseq [rstr "Rs", ropt (rchar '.')]), ws0, numLoose])]

/-- Captured ICICI date token, then the unmarked transaction tail. -/
def iciciTxRx : Rx := .seq (.grp 1 iciciDateRx) plainTxRest

/- IDFC grammar patterns (idfc.py). -/

/-- `Card\s+Number.*?(\d{4})`. -/
def idfcCardRx : Rx := rseq [rstr "Card", ws1, rstr "Number", lazyAny, .grp 1 (digits 4 4)]

/-- `Statement\s+Period\s+(range)`. -/
def idfcBillRx : Rx := rseq [rstr "Statement", ws1, rstr "Period", ws1, .grp 1 dmyRange]

/-- `Payment\s+Due\s+Date\s+(\d{1,2}/\d{1,2}/\d{4})`. -/
def idfcDueRx : Rx :=
  rseq [rstr "Payment", ws1, rstr "Due", ws1, rstr "Date", ws1, .grp 1 dateDMY]

/-- `Total\s+Amount\s+Due\s*(?:₹|Rs\.?)?\s*([\d,]+\.?\d*)`. -/
def idfcTotRx : Rx :=
  rseq [rstr "Total", ws1, rstr "Amount", ws1, rstr "Due", ws0,
    ropt (.alt (rstr "₹") (rseq [rstr "Rs", ropt (rchar '.')])), ws0, .grp 1 numLoose]

/-- `(\d{1,2}/\d{1,2}/\d{4})\s+([A-Z0-9 ,.&\-\/]+?)\s+(-?\d{1,3}(?:,\d{3})*(?:\.\d{2}))`. -/
def idfcTxRx : Rx := .seq (.grp 1 dateDMY) plainTxRest

/- Data model (the canonical output record of the engine). -/

/-- One transaction row of the output. -/
structure Transaction where
  date : String
  description : String
  amount : String
  deriving DecidableEq

/-- The canonical statement record assembled by each grammar. -/
structure Statement where
  issuer : String
  card_last_4_digits : Option String
  billing_period : Option String
  payment_due_date : Option String
  total_amount_due : Option String
  transactions : List Transaction
  deriving DecidableEq

instance {ε α : Type} [DecidableEq ε] [DecidableEq α] : DecidableEq (Except ε α) := fun a b =>
  match a, b with
  | .ok x, .ok y => if h : x = y then .isTrue (by rw [h]) else .isFalse (by simp [h])
  | .error x, .error y => if h : x = y then .isTrue (by rw [h]) else .isFalse (by simp [h])
  | .ok _, .error _ => .isFalse (by simp)
  | .error _, .ok _ => .isFalse (by simp)

/- Normalizers (utils.py).  Python falsiness of `None` and `""` is modelled by
the `none`/empty-string cases. -/

/-- `clean_amount(s)`: `None` for `None`/empty input, else `s.strip()`. -/
def clean_amount : Option String → Option String
  | none => none
  | some s => if s == "" then none else some (pyStrip s)

/-- `normalize_date(s)`: `None` for `None`/empty input, else `s.strip()`. -/
def normalize_date : Option String → Option String
  | none => none
  | some s => if s == "" then none else some (pyStrip s)

/-- Python truthiness of an optional string (`if x:`). -/
def truthy : Option String → Bool
  | none => false
  | some s => !(s == "")

/-- The source idiom `x = find_pattern(...); if x: field = x` (field stays
`None` unless the found value is truthy). -/
def ifTruthy : Option String → Option String
  | none => none
  | some s => if s == "" then none else some s

/- HDFC grammar (parse_hdfc). -/

/-- HDFC card-digits block: first 4-digit group right after `Card No:`. -/
def hdfcCardField (text : String) : Option String :=
  ifTruthy (find_pattern text hdfcCardRx 1)

/-- HDFC billing-period block: statement date, else statement month. -/
def hdfcBillingField (text : String) : Option String :=
  let sd := find_pattern text hdfcStmtDateRx 1
  let sm := find_pattern text hdfcStmtMonthRx 1
  if truthy sd then normalize_date sd
  else if truthy sm then sm
  else none

/-- HDFC payment-due-date block. -/
def hdfcDueField (text : String) : Option String :=
  let dd := find_pattern text hdfcDueRx 1
  if truthy dd then normalize_date dd else none

/-- HDFC total-amount block: table pattern, else account-summary fallback;
either way the rupee sign is prefixed onto the cleaned capture. -/
def hdfcTotalField (text : String) : Option String :=
  let a1 := find_pattern text hdfcTotRx 1
  if truthy a1 then some ("₹" ++ (clean_amount a1).getD "")
  else
    let a2 := find_pattern text hdfcTotAltRx 1
    if truthy a2 then some ("₹" ++ (clean_amount a2).getD "") else none

/-- Body of the HDFC/AXIS transaction loop: groups are (date, description,
amount, optional Cr/Dr marker); a `Cr` marker (case-insensitively) prefixes
a minus sign onto the cleaned amount.  (The date and amount groups are
non-empty in every match, so the `getD` defaults are never used.) -/
def markedTxOfCaps (c : Caps) : Transaction :=
  let date := String.mk ((c.lookup 1).getD [])
  let desc := String.mk ((c.lookup 2).getD [])
  let amt := String.mk ((c.lookup 3).getD [])
  let crdr := (c.lookup 4).map String.mk
  let amountClean := (clean_amount (some amt)).getD ""
  let amountFinal :=
    match crdr with
    | some m => if !(m == "") && lowerS m == "cr" then "-" ++ amountClean else amountClean
    | none => amountClean
  { date := (normalize_date (some date)).getD "",
    description := pyStrip desc,
    amount := amountFinal }

/-- HDFC transaction scan. -/
def hdfcTxField (text : String) : List Transaction :=
  (finditer hdfcTxRx text.data).map markedTxOfCaps

/-- `parse_hdfc(text)`. -/
def parse_hdfc (text : String) : Statement :=
  { issuer := "HDFC",
    card_last_4_digits := hdfcCardField text,
    billing_period := hdfcBillingField text,
    payment_due_date := hdfcDueField text,
    total_amount_due := hdfcTotalField text,
    transactions := hdfcTxField text }

/- AXIS grammar (parse_axis). -/

def axisCardField (text : String) : Option String :=
  ifTruthy (find_pattern text axisCardRx 1)

def axisBillingField (text : String) : Option String :=
  let bp := find_pattern text axisBillRx 1
  if truthy bp then normalize_date bp else none

def axisDueField (text : String) : Option String :=
  let dd := find_pattern text axisDueRx 1
  if truthy dd then normalize_date dd else none

/-- AXIS total-amount block.  The prefixed literal in axis.py is the
three-character mojibake sequence "â‚¹" (bytes c3 a2 e2 80 9a c2 b9 in the
source file), not the rupee sign. -/
def axisTotalField (text : String) : Option String :=
  let a := find_pattern text axisTotRx 1
  if truthy a then some ("â‚¹" ++ (clean_amount a).getD "") else none

def axisTxField (text : String) : List Transaction :=
  (finditer axisTxRx text.data).map markedTxOfCaps

/-- `parse_axis(text)`. -/
def parse_axis (text : String) : Statement :=
  { issuer := "AXIS",
    card_last_4_digits := axisCardField text,
    billing_period := axisBillingField text,
    payment_due_date := axisDueField text,
    total_amount_due := axisTotalField text,
    transactions := axisTxField text }

/- CHASE grammar (parse_chase). -/

def chaseCardField (text : String) : Option String :=
  ifTruthy (find_pattern text chaseCardRx 1)

def chaseBillingField (text : String) : Option String :=
  let bp := find_pattern text chaseBillRx 1
  if truthy bp then normalize_date bp else none

def chaseDueField (text : String) : Option String :=
  let dd := find_pattern text chaseDueRx 1
  if truthy dd then normalize_date dd else none

/-- CHASE total-amount block: the cleaned capture with no symbol added. -/
def chaseTotalField (text : String) : Option String :=
  let a := find_pattern text chaseTotRx 1
  if truthy a then clean_amount a else none

/-- Body of the CHASE/ICICI/IDFC transaction loop: groups are (date,
description, amount); the amount is stored as captured (cleaned), with no
credit/debit marker in the pattern. -/
def plainTxOfCaps (c : Caps) : Transaction :=
  { date := (normalize_date (some (String.mk ((c.lookup 1).getD [])))).getD "",
    description := pyStrip (String.mk ((c.lookup 2).getD [])),
    amount := (clean_amount (some (String.mk ((c.lookup 3).getD [])))).getD "" }

def chaseTxField (text : String) : List Transaction :=
  (finditer chaseTxRx text.data).map plainTxOfCaps

/-- `parse_chase(text)`. -/
def parse_chase (text : String) : Statement :=
  { issuer := "CHASE",
    card_last_4_digits := chaseCardField text,
    billing_period := chaseBillingField text,
    payment_due_date := chaseDueField text,
    total_amount_due := chaseTotalField text,
    transactions := chaseTxField text }

/- ICICI grammar (parse_icici). -/

def iciciCardField (text : String) : Option String :=
  ifTruthy (find_pattern text iciciCardRx 1)

def iciciBillingField (text : String) : Option String :=
  let bp := find_pattern text iciciBillRx 1
  if truthy bp then normalize_date bp else none

def iciciDueField (text : String) : Option String :=
  let dd := find_pattern text iciciDueRx 1
  if truthy dd then normalize_date dd else none

/-- ICICI total-amount block: the cleaned capture (which includes any
currency marker matched by the capture group itself); nothing is added. -/
def iciciTotalField (text : String) : Option String :=
  let a := find_pattern text iciciTotRx 1
  if truthy a then clean_amount a else none

def iciciTxField (text : String) : List Transaction :=
  (finditer iciciTxRx text.data).map plainTxOfCaps

/-- `parse_icici(text)`. -/
def parse_icici (text : String) : Statement :=
  { issuer := "ICICI",
    card_last_4_digits := iciciCardField text,
    billing_period := iciciBillingField text,
    payment_due_date := iciciDueField text,
    total_amount_due := iciciTotalField text,
    transactions := iciciTxField text }

/- IDFC grammar (parse_idfc). -/

def idfcCardField (text : String) : Option String :=
  ifTruthy (find_pattern text idfcCardRx 1)

def idfcBillingField (text : String) : Option String :=
  let bp := find_pattern text idfcBillRx 1
  if truthy bp then normalize_date bp else none

def idfcDueField (text : String) : Option String :=
  let dd := find_pattern text idfcDueRx 1
  if truthy dd then normalize_date dd else none

/-- IDFC total-amount block: rupee sign prefixed onto the cleaned capture. -/
def idfcTotalField (text : String) : Option String :=
  let a := find_pattern text idfcTotRx 1
  if truthy a then some ("₹" ++ (clean_amount a).getD "") else none

def idfcTxField (text : String) : List Transaction :=
  (finditer idfcTxRx text.data).map plainTxOfCaps

/-- `parse_idfc(text)`. -/
def parse_idfc (text : String) : Statement :=
  { issuer := "IDFC",
    card_last_4_digits := idfcCardField text,
    billing_period := idfcBillingField text,
    payment_due_date := idfcDueField text,
    total_amount_due := idfcTotalField text,
    transactions := idfcTxField text }

/- Issuer detection (detect_issuer.py). -/

/-- Does a signature pattern match somewhere in the uppercased text? -/
def sigFound (r : Rx) (text : String) : Bool :=
  (rxSearch r (upperS text).data).isSome

/-- The message of the `UnsupportedIssuerError` raised by `detect_issuer`. -/
def unsupportedIssuerMessage : String :=
  "Unable to detect credit card issuer. Supported issuers: HDFC Bank, ICICI Bank, Axis Bank, Chase, IDFC First Bank"

/-- `detect_issuer(text)`: ordered signature tests, first match wins;
no match raises `UnsupportedIssuerError` (modelled as `Except.error`). -/
def detect_issuer (text : String) : Except String String :=
  if sigFound sigHdfcRx text then .ok "HDFC"
  else if sigFound sigIciciRx text then .ok "ICICI"
  else if sigFound sigAxisRx text then .ok "AXIS"
  else if sigFound sigChaseRx text || sigFound sigJpmRx text then .ok "CHASE"
  else if sigFound sigIdfcFirstRx text || sigFound sigIdfcRx text then .ok "IDFC"
  else .error unsupportedIssuerMessage

/-- The statement assembler (main.py `parse_statement`, text-extraction and
file handling excluded): detect the issuer, dispatch to the grammar.  The
final error branch mirrors the `parsers.get` fallback and is unreachable. -/
def assemble (text : String) : Except String Statement :=
  match detect_issuer text with
  | .error e => .error e
  | .ok issuer =>
      if issuer == "HDFC" then .ok (parse_hdfc text)
      else if issuer == "ICICI" then .ok (parse_icici text)
      else if issuer == "AXIS" then .ok (parse_axis text)
      else if issuer == "CHASE" then .ok (parse_chase text)
      else if issuer == "IDFC" then .ok (parse_idfc text)
      else .error ("No parser available for issuer: " ++ issuer)

/- ------------------------------------------------------------------ -/
/- Theory: properties of stripping.                                    -/
/- ------------------------------------------------------------------ -/

/-- A list is trimmed when neither end is whitespace. -/
def TrimmedL (l : List Char) : Prop :=
  (∀ c, l.head? = some c → isSp c = false) ∧ (∀ c, l.getLast? = some c → isSp c = false)

/-- Decrement of an optional repetition bound. -/
def hiPred : Option Nat → Option Nat
  | none => none
  | some m => some (m - 1)

/-- `Accepts r l`: pattern `r` can consume exactly the character list `l`
(ignoring the zero-width end assertion's context condition). -/
inductive Accepts : Rx → List Char → Prop where
  | eps : Accepts .eps []
  | cls : ∀ (p : Char → Bool) (c : Char), p c = true → Accepts (.cls p) [c]
  | seqA : ∀ {a b l₁ l₂}, Accepts a l₁ → Accepts b l₂ → Accepts (.seq a b) (l₁ ++ l₂)
  | altL : ∀ {a b l}, Accepts a l → Accepts (.alt a b) l
  | altR : ∀ {a b l}, Accepts b l → Accepts (.alt a b) l
  | grpA : ∀ {n a l}, Accepts a l → Accepts (.grp n a) l
  | endA : Accepts .assertEnd []
  | repDone : ∀ {hi lz a}, Accepts (.rep 0 hi lz a) []
  | repStep : ∀ {lo hi lz a l₁ l₂}, hi ≠ some 0 → Accepts a l₁ →
      Accepts (.rep (lo - 1) (hiPred hi) lz a) l₂ → Accepts (.rep lo hi lz a) (l₁ ++ l₂)

/-- The bodies of all capture groups numbered `n` inside a pattern. -/
def grpBodies (n : Nat) : Rx → List Rx
  | .eps => []
  | .cls _ => []
  | .assertEnd => []
  | .seq a b => grpBodies n a ++ grpBodies n b
  | .alt a b => grpBodies n a ++ grpBodies n b
  | .rep _ _ _ a => grpBodies n a
  | .grp m a => (if m = n then [a] else []) ++ grpBodies n a

/-- Group numbers that participate in every successful match of the pattern. -/
def mustGrps : Rx → List Nat
  | .eps => []
  | .cls _ => []
  | .assertEnd => []
  | .seq a b => mustGrps a ++ mustGrps b
  | .alt a b => (mustGrps a).inter (mustGrps b)
  | .rep lo _ _ a => if lo = 0 then [] else mustGrps a
  | .grp m a => m :: mustGrps a

/-- `clsAll Q r`: every character class occurring in `r` satisfies `Q`. -/
def clsAll (Q : (Char → Bool) → Prop) : Rx → Prop
  | .eps => True
  | .cls p => Q p
  | .assertEnd => True
  | .seq a b => clsAll Q a ∧ clsAll Q b
  | .alt a b => clsAll Q a ∧ clsAll Q b
  | .rep _ _ _ a => clsAll Q a
  | .grp _ a => clsAll Q a

/-- The text contains no occurrence of the token pattern `d` (expressed with
the fuel the scanner of the whole pattern uses). -/
abbrev NoToken (d whole : Rx) (l : List Char) : Prop :=
  ∀ i, i ≤ l.length → matchRx (fuelFor whole l) d (l.drop i) = []

/-- Executable version of `NoToken`: the token pattern matches at no
position of the text. -/
def noTokenB (d whole : Rx) (l : List Char) : Bool :=
  (List.range (l.length + 1)).all fun i => matchRx (fuelFor whole l) d (l.drop i) == []

/-- An optional field value is acceptable when it is absent or a non-empty
string unchanged by stripping. -/
def GoodOpt : Option String → Prop
  | none => True
  | some s => (s == "") = false ∧ pyStrip s = s

/-- The cleaned amount captured by group 3 of a transaction match. -/
def capAmt (c : Caps) : String :=
  pyStrip (String.mk ((c.lookup 3).getD []))

/-- Whether the optional group 4 of a transaction match is a (truthy) `Cr`
marker, case-insensitively. -/
def capCr (c : Caps) : Bool :=
  match c.lookup 4 with
  | some m => !(String.mk m == "") && lowerS (String.mk m) == "cr"
  | none => false

/-- The credit/debit convention relating an output transaction to its match:
a trailing `Cr` marker negates the captured amount, anything else leaves it
as captured. -/
def MarkedSign (t : Transaction) (c : Caps) : Prop :=
  (capCr c = true ∧ t.amount = "-" ++ capAmt c) ∨ (capCr c = false ∧ t.amount = capAmt c)

/-- An AXIS-shaped sample text whose total-amount pattern matches. -/
def axisTotalSample : String :=
  "AXIS BANK Total Payment Due Minimum Payment Due 1,289.00 Dr"

/-- An optional field record is acceptable: issuer non-empty and each
optional field absent or a non-empty string unchanged by stripping. -/
def GoodStatement (st : Statement) : Prop :=
  (st.issuer == "") = false
  ∧ GoodOpt st.card_last_4_digits
  ∧ GoodOpt st.billing_period
  ∧ GoodOpt st.payment_due_date
  ∧ GoodOpt st.total_amount_due

/-- A text with no occurrence of the HDFC card-number anchor. -/
def hdfcNoCardText : String := "HDFC BANK Statement Date:23/10/2024"

/-- A transaction-shaped line with no recognizable date token. -/
def noDateText : String := "PURCHASE SOME MERCHANT 123.45"

/-- The amount string of a transaction ends with a decimal point followed by
exactly two digits. -/
def EndsCents (s : String) : Prop :=
  ∃ pre d₁ d₂, s.data = pre ++ ['.', d₁, d₂] ∧ isDigitB d₁ = true ∧ isDigitB d₂ = true

/-- A minimal one-transaction text. -/
def tinyTxText : String := "01/11/2024 SHOP 12.34"

/-- The HDFC sample fragment from the specification's testable property. -/
def hdfcSampleText : String :=
  "HDFC BANK ... Card No: 4341 55XX XXXX 3388 ... Statement Date:23/10/2024 ... Payment Due Date Total Dues Minimum Amount Due\n12/11/2024 83,794.00 4,240.00 ... 23/10/2024 SOME MERCHANT 1,234.56 Cr"

theorem dropWhile_head_false {p : Char → Bool} :
    ∀ {l : List Char} {c : Char}, (l.dropWhile p).head? = some c → p c = false := by
  intro l
  induction l with
  | nil => intro c h; simp [List.dropWhile] at h
  | cons a t ih =>
      intro c h
      by_cases hp : p a
      · rw [List.dropWhile_cons_of_pos hp] at h; exact ih h
      · rw [List.dropWhile_cons_of_neg hp] at h
        simp at h
        subst h
        simpa using hp

theorem dropWhile_eq_self {p : Char → Bool} {l : List Char}
    (h : ∀ c, l.head? = some c → p c = false) : l.dropWhile p = l := by
  cases l with
  | nil => rfl
  | cons a t =>
      have := h a (by rfl)
      simp [List.dropWhile, this]

theorem dropWhile_getLast? {p : Char → Bool} :
    ∀ {l : List Char}, l.dropWhile p ≠ [] → (l.dropWhile p).getLast? = l.getLast? := by
  intro l
  induction l with
  | nil => intro h; simp [List.dropWhile] at h
  | cons a t ih =>
      intro h
      by_cases hp : p a
      · rw [List.dropWhile_cons_of_pos hp] at h ⊢
        rw [ih h]
        have ht : t ≠ [] := by
          intro he; rw [he] at h; simp [List.dropWhile] at h
        cases t with
        | nil => exact absurd rfl ht
        | cons b u => simp [List.getLast?_cons_cons]
      · rw [List.dropWhile_cons_of_neg hp]

theorem stripL_trimmed (l : List Char) : TrimmedL (stripL l) := by
  unfold stripL
  set u := l.dropWhile isSp with hu
  set v := u.reverse.dropWhile isSp with hv
  constructor
  · intro c hc
    rw [List.head?_reverse] at hc
    by_cases hvnil : v = []
    · rw [hvnil] at hc; simp at hc
    · rw [hv, dropWhile_getLast? (hv ▸ hvnil), List.getLast?_reverse] at hc
      exact dropWhile_head_false (hu ▸ hc)
  · intro c hc
    rw [List.getLast?_reverse] at hc
    exact dropWhile_head_false (hv ▸ hc)

theorem TrimmedL.stripL_eq {l : List Char} (h : TrimmedL l) : stripL l = l := by
  unfold stripL
  rw [dropWhile_eq_self h.1]
  have : l.reverse.dropWhile isSp = l.reverse := by
    refine dropWhile_eq_self ?_
    intro c hc
    rw [List.head?_reverse] at hc
    exact h.2 c hc
  rw [this, List.reverse_reverse]

theorem stripL_idem (l : List Char) : stripL (stripL l) = stripL l :=
  (stripL_trimmed l).stripL_eq

theorem pyStrip_idem (s : String) : pyStrip (pyStrip s) = pyStrip s := by
  unfold pyStrip
  rw [show (String.mk (stripL s.data)).data = stripL s.data from rfl, stripL_idem]

theorem stripL_of_no_sp {l : List Char} (h : ∀ c ∈ l, isSp c = false) : stripL l = l := by
  refine TrimmedL.stripL_eq ⟨?_, ?_⟩
  · intro c hc
    exact h c (List.mem_of_mem_head? (by rw [Option.mem_def]; exact hc))
  · intro c hc
    have hc' : c ∈ l.getLast? := by rw [Option.mem_def]; exact hc
    obtain ⟨hne, hEq⟩ := List.mem_getLast?_eq_getLast hc'
    exact h c (hEq ▸ List.getLast_mem hne)

/- ------------------------------------------------------------------ -/
/- Theory: fuel monotonicity of the matcher.                           -/
/- ------------------------------------------------------------------ -/

/-- More fuel can only add alternatives: every match found at fuel `f` is
also found at any fuel `g ≥ f`. -/
theorem matchRx_mono : ∀ (f g : Nat) (r : Rx) (s : List Char) (x : Caps × List Char),
    f ≤ g → x ∈ matchRx f r s → x ∈ matchRx g r s := by
  intro f
  induction f with
  | zero => intro g r s x _ hx; simp [matchRx] at hx
  | succ f ih =>
      intro g r s x hfg hx
      obtain ⟨g, rfl⟩ : ∃ g', g = g' + 1 := ⟨g - 1, by omega⟩
      have hfg' : f ≤ g := by omega
      cases r with
      | eps => simpa [matchRx] using hx
      | assertEnd =>
          simp only [matchRx] at hx ⊢
          exact hx
      | cls p =>
          cases s with
          | nil => simp [matchRx] at hx
          | cons c t =>
              simp only [matchRx] at hx ⊢
              exact hx
      | seq a b =>
          simp only [matchRx, List.mem_flatMap, List.mem_map] at hx ⊢
          obtain ⟨u, hu, v, hv, hxv⟩ := hx
          exact ⟨u, ih g a s u hfg' hu, v, ih g b u.2 v hfg' hv, hxv⟩
      | alt a b =>
          simp only [matchRx, List.mem_append] at hx ⊢
          rcases hx with h | h
          · exact Or.inl (ih g a s x hfg' h)
          · exact Or.inr (ih g b s x hfg' h)
      | grp n a =>
          simp only [matchRx, List.mem_map] at hx ⊢
          obtain ⟨u, hu, hxu⟩ := hx
          exact ⟨u, ih g a s u hfg' hu, hxu⟩
      | rep lo hi lz a =>
          cases hi with
          | some m =>
              cases m with
              | zero =>
                  simp only [matchRx] at hx ⊢
                  exact hx
              | succ m =>
                  simp only [matchRx, List.mem_append, List.mem_flatMap, List.mem_map] at hx ⊢
                  cases lz with
                  | true =>
                      simp only [eq_self_iff_true, if_true] at hx ⊢
                      rw [List.mem_append] at hx ⊢
                      rcases hx with h | h
                      · exact Or.inl h
                      · rw [List.mem_flatMap] at h ⊢
                        obtain ⟨u, hu, hv⟩ := h
                        rw [List.mem_map] at hv
                        obtain ⟨v, hv, hxv⟩ := hv
                        refine Or.inr ⟨u, ih g a s u hfg' hu, ?_⟩
                        rw [List.mem_map]
                        exact ⟨v, ih g _ u.2 v hfg' hv, hxv⟩
                  | false =>
                      simp only [Bool.false_eq_true, if_false] at hx ⊢
                      rw [List.mem_append] at hx ⊢
                      rcases hx with h | h
                      · rw [List.mem_flatMap] at h ⊢
                        obtain ⟨u, hu, hv⟩ := h
                        rw [List.mem_map] at hv
                        obtain ⟨v, hv, hxv⟩ := hv
                        refine Or.inl ⟨u, ih g a s u hfg' hu, ?_⟩
                        rw [List.mem_map]
                        exact ⟨v, ih g _ u.2 v hfg' hv, hxv⟩
                      · exact Or.inr h
          | none =>
              simp only [matchRx] at hx ⊢
              cases lz with
              | true =>
                  simp only [eq_self_iff_true, if_true] at hx ⊢
                  rw [List.mem_append] at hx ⊢
                  rcases hx with h | h
                  · exact Or.inl h
                  · rw [List.mem_flatMap] at h ⊢
                    obtain ⟨u, hu, hv⟩ := h
                    rw [List.mem_map] at hv
                    obtain ⟨v, hv, hxv⟩ := hv
                    refine Or.inr ⟨u, ih g a s u hfg' hu, ?_⟩
                    rw [List.mem_map]
                    exact ⟨v, ih g _ u.2 v hfg' hv, hxv⟩
              | false =>
                  simp only [Bool.false_eq_true, if_false] at hx ⊢
                  rw [List.mem_append] at hx ⊢
                  rcases hx with h | h
                  · rw [List.mem_flatMap] at h ⊢
                    obtain ⟨u, hu, hv⟩ := h
                    rw [List.mem_map] at hv
                    obtain ⟨v, hv, hxv⟩ := hv
                    refine Or.inl ⟨u, ih g a s u hfg' hu, ?_⟩
                    rw [List.mem_map]
                    exact ⟨v, ih g _ u.2 v hfg' hv, hxv⟩
                  · exact Or.inr h

/- ------------------------------------------------------------------ -/
/- Theory: soundness of the matcher (consumed characters, captures).   -/
/- ------------------------------------------------------------------ -/

theorem take_len_append (l₁ l₂ : List Char) : (l₁ ++ l₂).take l₁.length = l₁ := by
  induction l₁ with
  | nil => rfl
  | cons a t ih => simp [List.take, ih]

/-- Soundness of the matcher: every reported alternative consumes a prefix
accepted by the pattern, every recorded capture is accepted by the body of a
group with that number, and every mandatory group is recorded. -/
theorem matchRx_sound : ∀ (f : Nat) (r : Rx) (s : List Char) (x : Caps × List Char),
    x ∈ matchRx f r s →
    (∃ l, s = l ++ x.2 ∧ Accepts r l)
    ∧ (∀ n g, (n, g) ∈ x.1 → ∃ b, b ∈ grpBodies n r ∧ Accepts b g)
    ∧ (∀ n, n ∈ mustGrps r → ∃ g, (n, g) ∈ x.1) := by
  intro f
  induction f with
  | zero => intro r s x hx; simp [matchRx] at hx
  | succ f ih =>
      intro r s x hx
      cases r with
      | eps =>
          simp only [matchRx, List.mem_singleton] at hx
          subst hx
          exact ⟨⟨[], by simp, Accepts.eps⟩, by simp, by simp [mustGrps]⟩
      | assertEnd =>
          simp only [matchRx] at hx
          by_cases hcond : s = [] ∨ s = ['\n']
          · rw [if_pos hcond] at hx
            simp only [List.mem_singleton] at hx
            subst hx
            exact ⟨⟨[], by simp, Accepts.endA⟩, by simp, by simp [mustGrps]⟩
          · rw [if_neg hcond] at hx
            simp at hx
      | cls p =>
          cases s with
          | nil => simp [matchRx] at hx
          | cons c t =>
              simp only [matchRx] at hx
              by_cases hp : p c
              · rw [if_pos hp] at hx
                simp only [List.mem_singleton] at hx
                subst hx
                exact ⟨⟨[c], by simp, Accepts.cls p c hp⟩, by simp, by simp [mustGrps]⟩
              · rw [if_neg hp] at hx
                simp at hx
      | seq a b =>
          simp only [matchRx, List.mem_flatMap, List.mem_map] at hx
          obtain ⟨u, hu, v, hv, hxv⟩ := hx
          obtain ⟨⟨l₁, hs₁, hacc₁⟩, hcap₁, hmust₁⟩ := ih a s u hu
          obtain ⟨⟨l₂, hs₂, hacc₂⟩, hcap₂, hmust₂⟩ := ih b u.2 v hv
          subst hxv
          refine ⟨⟨l₁ ++ l₂, ?_, Accepts.seqA hacc₁ hacc₂⟩, ?_, ?_⟩
          · rw [hs₁, hs₂]; simp
          · intro n g hg
            simp only [List.mem_append] at hg
            rcases hg with hg | hg
            · obtain ⟨bd, hbd, hbacc⟩ := hcap₂ n g hg
              exact ⟨bd, by simp [grpBodies, hbd], hbacc⟩
            · obtain ⟨bd, hbd, hbacc⟩ := hcap₁ n g hg
              exact ⟨bd, by simp [grpBodies, hbd], hbacc⟩
          · intro n hn
            simp only [mustGrps, List.mem_append] at hn
            rcases hn with hn | hn
            · obtain ⟨g, hg⟩ := hmust₁ n hn
              exact ⟨g, by simp [hg]⟩
            · obtain ⟨g, hg⟩ := hmust₂ n hn
              exact ⟨g, by simp [hg]⟩
      | alt a b =>
          simp only [matchRx, List.mem_append] at hx
          rcases hx with h | h
          · obtain ⟨⟨l, hs, hacc⟩, hcap, hmust⟩ := ih a s x h
            refine ⟨⟨l, hs, Accepts.altL hacc⟩, ?_, ?_⟩
            · intro n g hg
              obtain ⟨bd, hbd, hbacc⟩ := hcap n g hg
              exact ⟨bd, by simp [grpBodies, hbd], hbacc⟩
            · intro n hn
              simp only [mustGrps] at hn
              exact hmust n (List.mem_inter_iff.mp hn).1
          · obtain ⟨⟨l, hs, hacc⟩, hcap, hmust⟩ := ih b s x h
            refine ⟨⟨l, hs, Accepts.altR hacc⟩, ?_, ?_⟩
            · intro n g hg
              obtain ⟨bd, hbd, hbacc⟩ := hcap n g hg
              exact ⟨bd, by simp [grpBodies, hbd], hbacc⟩
            · intro n hn
              simp only [mustGrps] at hn
              exact hmust n (List.mem_inter_iff.mp hn).2
      | grp n₀ a =>
          simp only [matchRx, List.mem_map] at hx
          obtain ⟨u, hu, hxu⟩ := hx
          obtain ⟨⟨l, hs, hacc⟩, hcap, hmust⟩ := ih a s u hu
          subst hxu
          have htake : s.take (s.length - u.2.length) = l := by
            rw [hs]
            have : (l ++ u.2).length - u.2.length = l.length := by
              simp [List.length_append]
            rw [this, take_len_append]
          refine ⟨⟨l, by simpa using hs, Accepts.grpA hacc⟩, ?_, ?_⟩
          · intro n g hg
            simp only [List.mem_cons] at hg
            rcases hg with hg | hg
            · injection hg with h1 h2
              subst h1
              refine ⟨a, ?_, ?_⟩
              · simp [grpBodies]
              · rw [h2, htake]; exact hacc
            · obtain ⟨bd, hbd, hbacc⟩ := hcap n g hg
              refine ⟨bd, ?_, hbacc⟩
              simp only [grpBodies, List.mem_append]
              exact Or.inr hbd
          · intro n hn
            simp only [mustGrps, List.mem_cons] at hn
            rcases hn with hn | hn
            · exact ⟨s.take (s.length - u.2.length), by simp [hn]⟩
            · obtain ⟨g, hg⟩ := hmust n hn
              exact ⟨g, by simp [hg]⟩
      | rep lo hi lz a =>
          have main :
              ∀ (hi' : Option Nat), hi ≠ some 0 → hiPred hi = hi' →
              x ∈ ((if lo = 0 then [(([] : Caps), s)] else []) ++
                    ((matchRx f a s).flatMap fun u =>
                      (matchRx f (.rep (lo - 1) hi' lz a) u.2).map fun y => (y.1 ++ u.1, y.2))) ∨
              x ∈ (((matchRx f a s).flatMap fun u =>
                      (matchRx f (.rep (lo - 1) hi' lz a) u.2).map fun y => (y.1 ++ u.1, y.2)) ++
                    (if lo = 0 then [(([] : Caps), s)] else [])) →
              (∃ l, s = l ++ x.2 ∧ Accepts (.rep lo hi lz a) l)
              ∧ (∀ n g, (n, g) ∈ x.1 → ∃ b, b ∈ grpBodies n (.rep lo hi lz a) ∧ Accepts b g)
              ∧ (∀ n, n ∈ mustGrps (.rep lo hi lz a) → ∃ g, (n, g) ∈ x.1) := by
            intro hi' hne hpred hmem
            have hmem' : x ∈ (if lo = 0 then [(([] : Caps), s)] else []) ∨
                x ∈ ((matchRx f a s).flatMap fun u =>
                  (matchRx f (.rep (lo - 1) hi' lz a) u.2).map fun y => (y.1 ++ u.1, y.2)) := by
              rcases hmem with h | h
              · rcases List.mem_append.mp h with h' | h'
                · exact Or.inl h'
                · exact Or.inr h'
              · rcases List.mem_append.mp h with h' | h'
                · exact Or.inr h'
                · exact Or.inl h'
            rcases hmem' with hbase | hstep
            · by_cases hlo : lo = 0
              · rw [if_pos hlo] at hbase
                simp only [List.mem_singleton] at hbase
                subst hbase
                subst hlo
                exact ⟨⟨[], by simp, Accepts.repDone⟩, by simp, by simp [mustGrps]⟩
              · rw [if_neg hlo] at hbase
                simp at hbase
            · simp only [List.mem_flatMap, List.mem_map] at hstep
              obtain ⟨u, hu, v, hv, hxv⟩ := hstep
              obtain ⟨⟨l₁, hs₁, hacc₁⟩, hcap₁, hmust₁⟩ := ih a s u hu
              obtain ⟨⟨l₂, hs₂, hacc₂⟩, hcap₂, hmust₂⟩ := ih (.rep (lo - 1) hi' lz a) u.2 v hv
              subst hxv
              refine ⟨⟨l₁ ++ l₂, ?_, ?_⟩, ?_, ?_⟩
              · rw [hs₁, hs₂]; simp
              · exact Accepts.repStep hne hacc₁ (hpred ▸ hacc₂)
              · intro n g hg
                simp only [List.mem_append] at hg
                rcases hg with hg | hg
                · obtain ⟨bd, hbd, hbacc⟩ := hcap₂ n g hg
                  exact ⟨bd, by simpa [grpBodies] using hbd, hbacc⟩
                · obtain ⟨bd, hbd, hbacc⟩ := hcap₁ n g hg
                  exact ⟨bd, by simpa [grpBodies] using hbd, hbacc⟩
              · intro n hn
                simp only [mustGrps] at hn
                by_cases hlo : lo = 0
                · rw [if_pos hlo] at hn; simp at hn
                · rw [if_neg hlo] at hn
                  obtain ⟨g, hg⟩ := hmust₁ n hn
                  exact ⟨g, by simp [hg]⟩
          cases hi with
          | some m =>
              cases m with
              | zero =>
                  simp only [matchRx] at hx
                  by_cases hlo : lo = 0
                  · rw [if_pos hlo] at hx
                    simp only [List.mem_singleton] at hx
                    subst hx
                    subst hlo
                    exact ⟨⟨[], by simp, Accepts.repDone⟩, by simp, by simp [mustGrps]⟩
                  · rw [if_neg hlo] at hx
                    simp at hx
              | succ m =>
                  simp only [matchRx] at hx
                  refine main (some m) (by simp) rfl ?_
                  cases lz with
                  | true =>
                      simp only [eq_self_iff_true, if_true] at hx
                      exact Or.inl hx
                  | false =>
                      simp only [Bool.false_eq_true, if_false] at hx
                      exact Or.inr hx
          | none =>
              simp only [matchRx] at hx
              refine main none (by simp) rfl ?_
              cases lz with
              | true =>
                  simp only [eq_self_iff_true, if_true] at hx
                  exact Or.inl hx
              | false =>
                  simp only [Bool.false_eq_true, if_false] at hx
                  exact Or.inr hx

/- ------------------------------------------------------------------ -/
/- Theory: character-level facts about accepted strings.               -/
/- ------------------------------------------------------------------ -/

/-- Characters of an accepted string all satisfy any property entailed by
every class of the pattern. -/
theorem accepts_chars {Q : Char → Prop} :
    ∀ {r : Rx} {l : List Char}, Accepts r l →
      clsAll (fun p => ∀ c, p c = true → Q c) r → ∀ c ∈ l, Q c := by
  intro r l hacc
  induction hacc with
  | eps => intro _ c hc; simp at hc
  | cls p c hp =>
      intro hall d hd
      simp only [clsAll] at hall
      simp only [List.mem_singleton] at hd
      subst hd
      exact hall d hp
  | seqA h1 h2 ih1 ih2 =>
      intro hall c hc
      simp only [clsAll] at hall
      rcases List.mem_append.mp hc with h | h
      · exact ih1 hall.1 c h
      · exact ih2 hall.2 c h
  | altL h ih =>
      intro hall
      simp only [clsAll] at hall
      exact ih hall.1
  | altR h ih =>
      intro hall
      simp only [clsAll] at hall
      exact ih hall.2
  | grpA h ih =>
      intro hall
      simp only [clsAll] at hall
      exact ih hall
  | endA => intro _ c hc; simp at hc
  | repDone => intro _ c hc; simp at hc
  | repStep hne h1 h2 ih1 ih2 =>
      intro hall c hc
      simp only [clsAll] at hall
      rcases List.mem_append.mp hc with h | h
      · exact ih1 hall c h
      · exact ih2 hall c h

theorem accepts_eps_inv {l : List Char} (h : Accepts .eps l) : l = [] := by
  cases h; rfl

theorem accepts_cls_inv {p : Char → Bool} {l : List Char} (h : Accepts (.cls p) l) :
    ∃ c, l = [c] ∧ p c = true := by
  cases h with
  | cls p c hp => exact ⟨c, rfl, hp⟩

theorem accepts_seq_inv {a b : Rx} {l : List Char} (h : Accepts (.seq a b) l) :
    ∃ l₁ l₂, l = l₁ ++ l₂ ∧ Accepts a l₁ ∧ Accepts b l₂ := by
  cases h with
  | seqA h1 h2 => exact ⟨_, _, rfl, h1, h2⟩

theorem accepts_d22_inv {l : List Char} (h : Accepts (digits 2 2) l) :
    ∃ d₁ d₂, l = [d₁, d₂] ∧ isDigitB d₁ = true ∧ isDigitB d₂ = true := by
  unfold digits at h
  cases h with
  | repStep hne h1 h2 =>
      obtain ⟨d₁, h1e, h1p⟩ := accepts_cls_inv h1
      have h2' : Accepts (.rep 1 (some 1) false (.cls isDigitB)) _ := h2
      cases h2' with
      | repStep hne2 h3 h4 =>
          obtain ⟨d₂, h3e, h3p⟩ := accepts_cls_inv h3
          have h4' : Accepts (.rep 0 (some 0) false (.cls isDigitB)) _ := h4
          cases h4' with
          | repDone =>
              exact ⟨d₁, d₂, by rw [h1e, h3e]; rfl, h1p, h3p⟩
          | repStep hne3 _ _ => exact absurd rfl hne3

/-- The character that a case-insensitive literal class accepts for a
caseless character is that character itself. -/
theorem rchar_self_inv {c₀ c : Char} (hflip : caseFlip c₀ = c₀)
    (h : (c == c₀ || c == caseFlip c₀) = true) : c = c₀ := by
  rw [hflip] at h
  simpa using h

/-- Shape of any string accepted by the transaction amount pattern: it ends
with a decimal point followed by exactly two digits. -/
theorem accepts_amount_shape {l : List Char} (h : Accepts amountRx l) :
    ∃ pre d₁ d₂, l = pre ++ ['.', d₁, d₂] ∧ isDigitB d₁ = true ∧ isDigitB d₂ = true := by
  obtain ⟨l₁, r₁, rfl, hminus, h₁⟩ := accepts_seq_inv h
  obtain ⟨l₂, r₂, rfl, hd13, h₂⟩ := accepts_seq_inv h₁
  obtain ⟨l₃, r₃, rfl, hcomma, h₃⟩ := accepts_seq_inv h₂
  obtain ⟨l₄, r₄, rfl, hdot, h₄⟩ := accepts_seq_inv h₃
  obtain ⟨l₅, r₅, rfl, hd22, h₅⟩ := accepts_seq_inv h₄
  obtain ⟨cdot, rfl, hc⟩ := accepts_cls_inv hdot
  obtain ⟨d₁, d₂, rfl, hdig1, hdig2⟩ := accepts_d22_inv hd22
  have hr₅ : r₅ = [] := accepts_eps_inv h₅
  subst hr₅
  have hcdot : cdot = '.' := rchar_self_inv (by decide) hc
  subst hcdot
  exact ⟨l₁ ++ (l₂ ++ l₃), d₁, d₂, by simp, hdig1, hdig2⟩

/-- No character class of the amount pattern accepts whitespace. -/
theorem amount_no_sp : clsAll (fun p => ∀ c, p c = true → isSp c = false) amountRx := by
  have hdig : ∀ c, isDigitB c = true → isSp c = false := by
    intro c h
    simp only [isDigitB, Bool.and_eq_true, decide_eq_true_eq] at h
    simp only [isSp, Bool.or_eq_true, beq_iff_eq]
    have h32 : c.toNat ≠ 32 := by omega
    have h9 : c.toNat ≠ 9 := by omega
    have h10 : c.toNat ≠ 10 := by omega
    have h13 : c.toNat ≠ 13 := by omega
    have h11 : c.toNat ≠ 11 := by omega
    have h12 : c.toNat ≠ 12 := by omega
    simp only [Bool.or_eq_false_iff, beq_eq_false_iff_ne]
    refine ⟨⟨⟨⟨⟨?_, ?_⟩, ?_⟩, ?_⟩, ?_⟩, ?_⟩ <;> rintro rfl <;> simp_all
  have hchar : ∀ (c₀ : Char), isSp c₀ = false → isSp (caseFlip c₀) = false →
      ∀ c, (c == c₀ || c == caseFlip c₀) = true → isSp c = false := by
    intro c₀ h₀ h₁ c hc
    have hc' : c = c₀ ∨ c = caseFlip c₀ := by simpa using hc
    rcases hc' with rfl | rfl
    · exact h₀
    · exact h₁
  refine ⟨?_, ?_, ?_, ?_, ?_⟩
  · exact hchar '-' (by decide) (by decide)
  · exact hdig
  · constructor
    · exact hchar ',' (by decide) (by decide)
    · exact hdig
  · exact hchar '.' (by decide) (by decide)
  · exact ⟨hdig, trivial⟩

/- Small lookup facts. -/

theorem lookup_mem {l : Caps} : ∀ {k : Nat} {v : List Char}, l.lookup k = some v → (k, v) ∈ l := by
  induction l with
  | nil => intro k v h; simp [List.lookup] at h
  | cons a t ih =>
      intro k v h
      rw [List.lookup] at h
      cases hk : (k == a.1) with
      | true =>
          simp only [hk] at h
          injection h with h
          have hk' : k = a.1 := by simpa using hk
          subst hk'
          rw [← h]
          exact List.mem_cons_self _ _
      | false =>
          simp only [hk] at h
          exact List.mem_cons_of_mem a (ih h)

theorem mem_lookup_isSome {l : Caps} : ∀ {k : Nat} {v : List Char}, (k, v) ∈ l → ∃ w, l.lookup k = some w := by
  induction l with
  | nil => intro k v h; simp at h
  | cons a t ih =>
      intro k v h
      rw [List.lookup]
      cases hk : (k == a.1) with
      | true => exact ⟨a.2, by simp only [hk]⟩
      | false =>
          simp only [hk]
          rcases List.mem_cons.mp h with h1 | h1
          · have hfst : k = a.1 := by rw [← h1]
            rw [hfst] at hk
            simp at hk
          · exact ih h1

/- ------------------------------------------------------------------ -/
/- Theory: facts about the transaction scanner.                        -/
/- ------------------------------------------------------------------ -/

/-- Every capture record produced by the scanner comes from an actual match
of the pattern at some position. -/
theorem finditerAux_mem (fuel : Nat) (r : Rx) :
    ∀ (k : Nat) (s : List Char) (c : Caps), c ∈ finditerAux fuel r k s →
      ∃ s₀ rest, (c, rest) ∈ matchRx fuel r s₀ := by
  intro k
  induction k with
  | zero => intro s c hc; simp [finditerAux] at hc
  | succ k ih =>
      intro s c hc
      cases s with
      | nil =>
          cases hm : matchRx fuel r [] with
          | nil =>
              simp only [finditerAux, hm] at hc
              simp at hc
          | cons x xt =>
              simp only [finditerAux, hm, List.mem_singleton] at hc
              exact ⟨[], x.2, by rw [hm, hc]; exact List.mem_cons_self _ _⟩
      | cons a t =>
          cases hm : matchRx fuel r (a :: t) with
          | nil =>
              simp only [finditerAux, hm] at hc
              exact ih t c hc
          | cons x xt =>
              simp only [finditerAux, hm] at hc
              by_cases hcond : x.2.length < (a :: t).length
              · rw [if_pos hcond] at hc
                rcases List.mem_cons.mp hc with h | h
                · exact ⟨a :: t, x.2, by rw [hm, h]; exact List.mem_cons_self _ _⟩
                · exact ih x.2 c h
              · rw [if_neg hcond] at hc
                rcases List.mem_cons.mp hc with h | h
                · exact ⟨a :: t, x.2, by rw [hm, h]; exact List.mem_cons_self _ _⟩
                · exact ih t c h

theorem finditer_mem {r : Rx} {l : List Char} {c : Caps} (hc : c ∈ finditer r l) :
    ∃ s₀ rest, (c, rest) ∈ matchRx (fuelFor r l) r s₀ :=
  finditerAux_mem (fuelFor r l) r (l.length + 1) l c hc

theorem noTokenB_to {d whole : Rx} {l : List Char} (h : noTokenB d whole l = true) :
    NoToken d whole l := by
  intro i hi
  have h1 := (List.all_eq_true.mp h) i (List.mem_range.mpr (by omega))
  exact eq_of_beq h1

/-- A scanner whose pattern starts with a (captured) token pattern finds no
match on a text that contains the token nowhere. -/
theorem finditer_nil_of_noToken (d rest : Rx) (l : List Char)
    (h : NoToken d (.seq (.grp 1 d) rest) l) :
    finditer (.seq (.grp 1 d) rest) l = [] := by
  set r : Rx := .seq (.grp 1 d) rest with hr
  set F : Nat := fuelFor r l with hF
  have hF2 : 2 ≤ F := by
    rw [hF]
    unfold fuelFor
    have h1 : 1 ≤ rxSize r + 2 := by omega
    have h2 : 2 ≤ l.length + 2 := by omega
    calc 2 = 1 * 2 := by omega
    _ ≤ (rxSize r + 2) * (l.length + 2) := Nat.mul_le_mul h1 h2
  obtain ⟨F', hF'⟩ : ∃ F', F = F' + 2 := ⟨F - 2, by omega⟩
  have key : ∀ i, i ≤ l.length → matchRx F r (l.drop i) = [] := by
    intro i hi
    have hd : matchRx F' d (l.drop i) = [] := by
      cases hmm : matchRx F' d (l.drop i) with
      | nil => rfl
      | cons x xt =>
          have hx : x ∈ matchRx F d (l.drop i) :=
            matchRx_mono F' F d (l.drop i) x (by omega) (by rw [hmm]; exact List.mem_cons_self _ _)
          rw [h i hi] at hx
          simp at hx
    rw [hF', hr]
    show matchRx (F' + 1 + 1) (.seq (.grp 1 d) rest) (l.drop i) = []
    simp only [matchRx, hd, List.map_nil, List.flatMap_nil]
  have aux : ∀ (k i : Nat), i ≤ l.length → finditerAux F r k (l.drop i) = [] := by
    intro k
    induction k with
    | zero => intro i hi; simp [finditerAux]
    | succ k ih =>
        intro i hi
        have hm := key i hi
        cases hdrop : l.drop i with
        | nil =>
            rw [hdrop] at hm
            simp only [finditerAux, hm]
        | cons a t =>
            rw [hdrop] at hm
            simp only [finditerAux, hm]
            have ht : t = l.drop (i + 1) := by
              have h2 := List.tail_drop l i
              rw [hdrop] at h2
              simpa using h2
            have hlt : i < l.length := by
              by_contra hcon
              have : l.drop i = [] := List.drop_eq_nil_of_le (by omega)
              rw [this] at hdrop
              simp at hdrop
            rw [ht]
            exact ih (i + 1) (by omega)
  have h0 := aux (l.length + 1) 0 (by omega)
  rw [List.drop_zero] at h0
  exact h0

/- ------------------------------------------------------------------ -/
/- Theory: the shape of extracted fields.                              -/
/- ------------------------------------------------------------------ -/

theorem find_pattern_strip {text : String} {r : Rx} {g : Nat} {s : String}
    (h : find_pattern text r g = some s) : pyStrip s = s := by
  unfold find_pattern at h
  obtain ⟨l, _, hs⟩ := Option.map_eq_some'.mp h
  rw [← hs]
  show pyStrip (String.mk (stripL l)) = String.mk (stripL l)
  unfold pyStrip
  rw [show (String.mk (stripL l)).data = stripL l from rfl, stripL_idem]

theorem goodOpt_ifTruthy {o : Option String} (h : ∀ s, o = some s → pyStrip s = s) :
    GoodOpt (ifTruthy o) := by
  cases o with
  | none => exact trivial
  | some s =>
      by_cases he : (s == "") = true
      · simp only [ifTruthy, if_pos he]
        exact trivial
      · simp only [ifTruthy, if_neg he]
        exact ⟨by simpa using he, h s rfl⟩

theorem goodOpt_normTruthy {o : Option String} (h : ∀ s, o = some s → pyStrip s = s) :
    GoodOpt (if truthy o then normalize_date o else none) := by
  cases o with
  | none => simp only [truthy, if_false]; exact trivial
  | some s =>
      by_cases he : (s == "") = true
      · simp only [truthy, he, Bool.not_true, if_false]
        exact trivial
      · have hB : (s == "") = false := by simpa using he
        have hs := h s rfl
        simp only [truthy, hB, Bool.not_false, if_true, normalize_date, if_neg he]
        exact ⟨by rw [hs]; exact hB, by rw [hs]; exact hs⟩

theorem goodOpt_cleanTruthy {o : Option String} (h : ∀ s, o = some s → pyStrip s = s) :
    GoodOpt (if truthy o then clean_amount o else none) := by
  cases o with
  | none => simp only [truthy, if_false]; exact trivial
  | some s =>
      by_cases he : (s == "") = true
      · simp only [truthy, he, Bool.not_true, if_false]
        exact trivial
      · have hB : (s == "") = false := by simpa using he
        have hs := h s rfl
        simp only [truthy, hB, Bool.not_false, if_true, clean_amount, if_neg he]
        exact ⟨by rw [hs]; exact hB, by rw [hs]; exact hs⟩

theorem data_ne_nil_of_ne_empty {s : String} (h : (s == "") = false) : s.data ≠ [] := by
  intro hd
  have hne : s ≠ "" := by simpa using h
  apply hne
  cases s with
  | mk l =>
      rw [show (String.mk l).data = l from rfl] at hd
      rw [hd]

theorem pyStrip_prefixed (sym s : String) (hne : sym.data ≠ [])
    (hhd : ∀ c, sym.data.head? = some c → isSp c = false)
    (hs : pyStrip s = s) (hsne : (s == "") = false) : pyStrip (sym ++ s) = sym ++ s := by
  have hsdata : stripL s.data = s.data := congrArg String.data hs
  have htr : TrimmedL s.data := by rw [← hsdata]; exact stripL_trimmed s.data
  have hdne : s.data ≠ [] := data_ne_nil_of_ne_empty hsne
  have htrall : TrimmedL (sym.data ++ s.data) := by
    constructor
    · intro c hc
      cases hsym : sym.data with
      | nil => exact absurd hsym hne
      | cons c₁ rest =>
          rw [hsym, List.cons_append, List.head?_cons] at hc
          injection hc with hc
          exact hhd c (by rw [hsym, List.head?_cons, hc])
    · intro c hc
      rw [List.getLast?_append_of_ne_nil sym.data hdne] at hc
      exact htr.2 c hc
  show String.mk (stripL (sym.data ++ s.data)) = sym ++ s
  rw [htrall.stripL_eq]
  rfl

theorem goodOpt_symTruthy (sym : String) {o : Option String}
    (hne : sym.data ≠ []) (hhd : ∀ c, sym.data.head? = some c → isSp c = false)
    (h : ∀ s, o = some s → pyStrip s = s) :
    GoodOpt (if truthy o then some (sym ++ (clean_amount o).getD "") else none) := by
  cases o with
  | none => simp only [truthy, if_false]; exact trivial
  | some s =>
      by_cases he : (s == "") = true
      · simp only [truthy, he, Bool.not_true, if_false]
        exact trivial
      · have hB : (s == "") = false := by simpa using he
        have hs := h s rfl
        have hval : (if truthy (some s) then some (sym ++ (clean_amount (some s)).getD "") else none)
            = some (sym ++ s) := by
          simp [truthy, clean_amount, hB, hs]
        rw [hval]
        constructor
        · rw [beq_eq_false_iff_ne]
          intro heq
          have hdata : (sym ++ s).data = [] := by rw [heq]
          rw [show (sym ++ s).data = sym.data ++ s.data from rfl] at hdata
          exact hne (List.append_eq_nil.mp hdata).1
        · exact pyStrip_prefixed sym s hne hhd hs hB

/- ------------------------------------------------------------------ -/
/- Claim theorems.                                                     -/
/- ------------------------------------------------------------------ -/

/-- C4 counterexample: `clean_amount` and `normalize_date` are not idempotent
on the whitespace-only string " ": one application yields the empty string,
a second application yields `None`. -/
theorem C4_strip_not_idempotent :
    ¬ (clean_amount (clean_amount (some " ")) = clean_amount (some " ") ∧
       normalize_date (normalize_date (some " ")) = normalize_date (some " ")) := by
  decide

/-- C4 amended: both normalizers return `None` on `None` input, and both are
idempotent on every string except the nonempty whitespace-only ones (where the
first application returns the empty string and the second returns `None`). -/
theorem C4_amended_idempotent :
    clean_amount none = none ∧ normalize_date none = none ∧
    ∀ s : String, (s = "" ∨ pyStrip s ≠ "") →
      (clean_amount (clean_amount (some s)) = clean_amount (some s) ∧
       normalize_date (normalize_date (some s)) = normalize_date (some s)) := by
  refine ⟨rfl, rfl, ?_⟩
  intro s h
  by_cases he : s = ""
  · subst he
    constructor <;> decide
  · have hstrip : pyStrip s ≠ "" := by
      rcases h with h | h
      · exact absurd h he
      · exact h
    have heB : (s == "") = false := by simpa using he
    have hsB : (pyStrip s == "") = false := by simpa using hstrip
    constructor <;>
      simp [clean_amount, normalize_date, heB, hsB, pyStrip_idem]

/-- C4 amended witness at the concrete input " a ". -/
theorem C4_amended_idempotent_witness :
    clean_amount (clean_amount (some " a ")) = clean_amount (some " a ") ∧
    normalize_date (normalize_date (some " a ")) = normalize_date (some " a ") :=
  C4_amended_idempotent.2.2 " a " (by decide)

/-- C2: issuer detection tests the five fixed signatures in the fixed
priority order HDFC, ICICI, AXIS, (Chase or JPMorgan), (IDFC First or IDFC);
the first matching signature wins, so a text with exactly one signature
classifies to that issuer and a text with several classifies to the one of
highest priority. -/
theorem C2_detect_priority (text : String) :
    (sigFound sigHdfcRx text = true → detect_issuer text = .ok "HDFC")
  ∧ (sigFound sigHdfcRx text = false → sigFound sigIciciRx text = true →
      detect_issuer text = .ok "ICICI")
  ∧ (sigFound sigHdfcRx text = false → sigFound sigIciciRx text = false →
      sigFound sigAxisRx text = true → detect_issuer text = .ok "AXIS")
  ∧ (sigFound sigHdfcRx text = false → sigFound sigIciciRx text = false →
      sigFound sigAxisRx text = false →
      (sigFound sigChaseRx text || sigFound sigJpmRx text) = true →
      detect_issuer text = .ok "CHASE")
  ∧ (sigFound sigHdfcRx text = false → sigFound sigIciciRx text = false →
      sigFound sigAxisRx text = false →
      (sigFound sigChaseRx text || sigFound sigJpmRx text) = false →
      (sigFound sigIdfcFirstRx text || sigFound sigIdfcRx text) = true →
      detect_issuer text = .ok "IDFC") := by
  refine ⟨?_, ?_, ?_, ?_, ?_⟩
  · intro h1; simp [detect_issuer, h1]
  · intro h1 h2; simp [detect_issuer, h1, h2]
  · intro h1 h2 h3; simp [detect_issuer, h1, h2, h3]
  · intro h1 h2 h3 h4; simp [detect_issuer, h1, h2, h3, h4]
  · intro h1 h2 h3 h4 h5; simp [detect_issuer, h1, h2, h3, h4, h5]

/-- C2 witness: a text carrying all five signatures classifies to HDFC, the
highest priority. -/
theorem C2_detect_priority_witness :
    detect_issuer "HDFC BANK ICICI BANK AXIS BANK CHASE BANK JPMORGAN CHASE IDFC FIRST BANK"
      = .ok "HDFC" :=
  (C2_detect_priority "HDFC BANK ICICI BANK AXIS BANK CHASE BANK JPMORGAN CHASE IDFC FIRST BANK").1
    (by decide)

/-- C3: on a text matching none of the five signatures, assembly fails with
the unsupported-issuer error, whose message names all five supported issuers,
and no Statement is produced. -/
theorem C3_unsupported_issuer (text : String)
    (h1 : sigFound sigHdfcRx text = false)
    (h2 : sigFound sigIciciRx text = false)
    (h3 : sigFound sigAxisRx text = false)
    (h4 : (sigFound sigChaseRx text || sigFound sigJpmRx text) = false)
    (h5 : (sigFound sigIdfcFirstRx text || sigFound sigIdfcRx text) = false) :
    assemble text = Except.error unsupportedIssuerMessage
    ∧ List.IsInfix "HDFC Bank".data unsupportedIssuerMessage.data
    ∧ List.IsInfix "ICICI Bank".data unsupportedIssuerMessage.data
    ∧ List.IsInfix "Axis Bank".data unsupportedIssuerMessage.data
    ∧ List.IsInfix "Chase".data unsupportedIssuerMessage.data
    ∧ List.IsInfix "IDFC First Bank".data unsupportedIssuerMessage.data := by
  refine ⟨?_, by decide, by decide, by decide, by decide, by decide⟩
  simp [assemble, detect_issuer, h1, h2, h3, h4, h5]

/-- C3 witness at a concrete unrecognized text. -/
theorem C3_unsupported_issuer_witness :
    assemble "hello world" = Except.error unsupportedIssuerMessage :=
  (C3_unsupported_issuer "hello world" (by decide) (by decide) (by decide) (by decide)
    (by decide)).1

theorem amountClean_eq (s : String) : (clean_amount (some s)).getD "" = pyStrip s := by
  by_cases h : (s == "") = true
  · have : s = "" := by simpa using h
    subst this
    decide
  · simp [clean_amount, h]

theorem markedSign_holds (c : Caps) : MarkedSign (markedTxOfCaps c) c := by
  unfold MarkedSign capCr
  cases hl : c.lookup 4 with
  | none =>
      right
      refine ⟨rfl, ?_⟩
      show (markedTxOfCaps c).amount = capAmt c
      unfold markedTxOfCaps capAmt
      simp only [hl, Option.map_none']
      rw [amountClean_eq]
  | some m =>
      by_cases hc : (!(String.mk m == "") && lowerS (String.mk m) == "cr") = true
      · left
        refine ⟨hc, ?_⟩
        show (markedTxOfCaps c).amount = "-" ++ capAmt c
        unfold markedTxOfCaps capAmt
        simp only [hl, Option.map_some']
        rw [if_pos hc, amountClean_eq]
      · right
        refine ⟨by simpa using hc, ?_⟩
        show (markedTxOfCaps c).amount = capAmt c
        unfold markedTxOfCaps capAmt
        simp only [hl, Option.map_some']
        rw [if_neg hc, amountClean_eq]

theorem plainAmt_holds (c : Caps) : (plainTxOfCaps c).amount = capAmt c := by
  unfold plainTxOfCaps capAmt
  rw [amountClean_eq]

theorem forall₂_map_self {α β : Type} {R : β → α → Prop} {f : α → β} :
    ∀ {l : List α}, (∀ x ∈ l, R (f x) x) → List.Forall₂ R (l.map f) l := by
  intro l
  induction l with
  | nil => intro _; simp
  | cons a t ih =>
      intro h
      simp only [List.map_cons]
      exact List.Forall₂.cons (h a (by simp)) (ih fun x hx => h x (by simp [hx]))

/-- C5: credit/debit sign convention of the transaction scanners.  For HDFC
and AXIS every output transaction's amount is the captured amount, negated
exactly when the match carries a (case-insensitive) trailing `Cr` marker; the
CHASE, ICICI and IDFC patterns carry no marker and the amount is always
output as captured. -/
theorem C5_sign_convention (text : String) :
    List.Forall₂ MarkedSign (parse_hdfc text).transactions (finditer hdfcTxRx text.data)
  ∧ List.Forall₂ MarkedSign (parse_axis text).transactions (finditer axisTxRx text.data)
  ∧ List.Forall₂ (fun t c => t.amount = capAmt c)
      (parse_chase text).transactions (finditer chaseTxRx text.data)
  ∧ List.Forall₂ (fun t c => t.amount = capAmt c)
      (parse_icici text).transactions (finditer iciciTxRx text.data)
  ∧ List.Forall₂ (fun t c => t.amount = capAmt c)
      (parse_idfc text).transactions (finditer idfcTxRx text.data) := by
  refine ⟨?_, ?_, ?_, ?_, ?_⟩
  · exact forall₂_map_self fun c _ => markedSign_holds c
  · exact forall₂_map_self fun c _ => markedSign_holds c
  · exact forall₂_map_self fun c _ => plainAmt_holds c
  · exact forall₂_map_self fun c _ => plainAmt_holds c
  · exact forall₂_map_self fun c _ => plainAmt_holds c

/-- C6 counterexample: on a text where the AXIS total-amount pattern matches
and captures "1,289.00", the output is the mojibake-prefixed string, not the
rupee-sign-prefixed string the claim describes. -/
theorem C6_axis_mojibake :
    find_pattern axisTotalSample axisTotRx 1 = some "1,289.00" ∧
    (parse_axis axisTotalSample).total_amount_due = some "â‚¹1,289.00" ∧
    (parse_axis axisTotalSample).total_amount_due ≠ some ("₹" ++ "1,289.00") := by
  decide

/-- C6 amended: when the primary total-amount pattern captures a truthy
value, HDFC and IDFC prefix the rupee sign onto the cleaned capture, AXIS
prefixes the three-character mojibake sequence found in its source literal,
and CHASE and ICICI output exactly the cleaned capture with nothing added. -/
theorem C6_amended_total_format (text : String) :
    (∀ a, find_pattern text hdfcTotRx 1 = some a → (a == "") = false →
        (parse_hdfc text).total_amount_due = some ("₹" ++ pyStrip a))
  ∧ (∀ a, find_pattern text axisTotRx 1 = some a → (a == "") = false →
        (parse_axis text).total_amount_due = some ("â‚¹" ++ pyStrip a))
  ∧ (∀ a, find_pattern text idfcTotRx 1 = some a → (a == "") = false →
        (parse_idfc text).total_amount_due = some ("₹" ++ pyStrip a))
  ∧ (∀ a, find_pattern text chaseTotRx 1 = some a → (a == "") = false →
        (parse_chase text).total_amount_due = some (pyStrip a))
  ∧ (∀ a, find_pattern text iciciTotRx 1 = some a → (a == "") = false →
        (parse_icici text).total_amount_due = some (pyStrip a)) := by
  refine ⟨?_, ?_, ?_, ?_, ?_⟩
  · intro a ha hne
    show hdfcTotalField text = _
    unfold hdfcTotalField
    rw [ha]
    simp [truthy, hne, clean_amount]
  · intro a ha hne
    show axisTotalField text = _
    unfold axisTotalField
    rw [ha]
    simp [truthy, hne, clean_amount]
  · intro a ha hne
    show idfcTotalField text = _
    unfold idfcTotalField
    rw [ha]
    simp [truthy, hne, clean_amount]
  · intro a ha hne
    show chaseTotalField text = _
    unfold chaseTotalField
    rw [ha]
    simp [truthy, hne, clean_amount]
  · intro a ha hne
    show iciciTotalField text = _
    unfold iciciTotalField
    rw [ha]
    simp [truthy, hne, clean_amount]

/-- C6 amended witness at the AXIS sample text. -/
theorem C6_amended_total_format_witness :
    (parse_axis axisTotalSample).total_amount_due = some ("â‚¹" ++ pyStrip "1,289.00") :=
  (C6_amended_total_format axisTotalSample).2.1 "1,289.00" (by decide) (by decide)

theorem head_notSp_cons (c₀ : Char) (rest : List Char) (h₀ : isSp c₀ = false) :
    ∀ c, (c₀ :: rest).head? = some c → isSp c = false := by
  intro c hc
  rw [List.head?_cons] at hc
  injection hc with hc
  rw [← hc]
  exact h₀

theorem goodOpt_hdfcBilling (text : String) : GoodOpt (hdfcBillingField text) := by
  unfold hdfcBillingField
  by_cases h1 : truthy (find_pattern text hdfcStmtDateRx 1) = true
  · rw [if_pos h1]
    have := goodOpt_normTruthy (o := find_pattern text hdfcStmtDateRx 1)
      (fun s hs => find_pattern_strip hs)
    rw [if_pos h1] at this
    exact this
  · rw [if_neg h1]
    by_cases h2 : truthy (find_pattern text hdfcStmtMonthRx 1) = true
    · rw [if_pos h2]
      cases hm : find_pattern text hdfcStmtMonthRx 1 with
      | none => exact trivial
      | some s =>
          rw [hm] at h2
          simp only [truthy, Bool.not_eq_eq_eq_not, Bool.not_true] at h2
          exact ⟨by simpa using h2, find_pattern_strip hm⟩
    · rw [if_neg h2]
      exact trivial

theorem goodOpt_hdfcTotal (text : String) : GoodOpt (hdfcTotalField text) := by
  unfold hdfcTotalField
  by_cases h1 : truthy (find_pattern text hdfcTotRx 1) = true
  · rw [if_pos h1]
    have := goodOpt_symTruthy "₹" (o := find_pattern text hdfcTotRx 1)
      (by decide) (head_notSp_cons '₹' [] (by decide))
      (fun s hs => find_pattern_strip hs)
    rw [if_pos h1] at this
    exact this
  · rw [if_neg h1]
    exact goodOpt_symTruthy "₹" (by decide) (head_notSp_cons '₹' [] (by decide))
      (fun s hs => find_pattern_strip hs)

/-- C7: on every input text, every grammar returns a record whose optional
fields are absent or non-empty trimmed strings (never the empty string), with
the issuer tag always non-empty; the transaction list is part of the record
on every path, and extraction misses are represented by absence, never by an
exception (the embedded grammars are total functions). -/
theorem C7_output_invariant (text : String) :
    GoodStatement (parse_hdfc text)
  ∧ GoodStatement (parse_axis text)
  ∧ GoodStatement (parse_chase text)
  ∧ GoodStatement (parse_icici text)
  ∧ GoodStatement (parse_idfc text) := by
  have hfp := fun (r : Rx) (g : Nat) (s : String)
      (hs : find_pattern text r g = some s) => find_pattern_strip hs
  refine ⟨⟨rfl, ?_, ?_, ?_, ?_⟩, ⟨rfl, ?_, ?_, ?_, ?_⟩, ⟨rfl, ?_, ?_, ?_, ?_⟩,
    ⟨rfl, ?_, ?_, ?_, ?_⟩, ⟨rfl, ?_, ?_, ?_, ?_⟩⟩
  · exact goodOpt_ifTruthy (hfp hdfcCardRx 1)
  · exact goodOpt_hdfcBilling text
  · exact goodOpt_normTruthy (hfp hdfcDueRx 1)
  · exact goodOpt_hdfcTotal text
  · exact goodOpt_ifTruthy (hfp axisCardRx 1)
  · exact goodOpt_normTruthy (hfp axisBillRx 1)
  · exact goodOpt_normTruthy (hfp axisDueRx 1)
  · exact goodOpt_symTruthy "â‚¹" (by decide) (head_notSp_cons 'â' ['‚', '¹'] (by decide))
      (hfp axisTotRx 1)
  · exact goodOpt_ifTruthy (hfp chaseCardRx 1)
  · exact goodOpt_normTruthy (hfp chaseBillRx 1)
  · exact goodOpt_normTruthy (hfp chaseDueRx 1)
  · exact goodOpt_cleanTruthy (hfp chaseTotRx 1)
  · exact goodOpt_ifTruthy (hfp iciciCardRx 1)
  · exact goodOpt_normTruthy (hfp iciciBillRx 1)
  · exact goodOpt_normTruthy (hfp iciciDueRx 1)
  · exact goodOpt_cleanTruthy (hfp iciciTotRx 1)
  · exact goodOpt_ifTruthy (hfp idfcCardRx 1)
  · exact goodOpt_normTruthy (hfp idfcBillRx 1)
  · exact goodOpt_normTruthy (hfp idfcDueRx 1)
  · exact goodOpt_symTruthy "₹" (by decide) (head_notSp_cons '₹' [] (by decide))
      (hfp idfcTotRx 1)

/-- C8: field failures are non-fatal and independent.  In the HDFC and CHASE
grammars a pattern that finds no match yields an absent value for its own
field only; each field of the returned Statement always equals its standalone
extractor, so the Statement is constructed with every other field extracted
as usual. -/
theorem C8_field_independence (text : String) :
    ((find_pattern text hdfcCardRx 1 = none → (parse_hdfc text).card_last_4_digits = none)
     ∧ (find_pattern text hdfcStmtDateRx 1 = none → find_pattern text hdfcStmtMonthRx 1 = none →
         (parse_hdfc text).billing_period = none)
     ∧ (find_pattern text hdfcDueRx 1 = none → (parse_hdfc text).payment_due_date = none)
     ∧ (find_pattern text hdfcTotRx 1 = none → find_pattern text hdfcTotAltRx 1 = none →
         (parse_hdfc text).total_amount_due = none)
     ∧ (parse_hdfc text).card_last_4_digits = hdfcCardField text
     ∧ (parse_hdfc text).billing_period = hdfcBillingField text
     ∧ (parse_hdfc text).payment_due_date = hdfcDueField text
     ∧ (parse_hdfc text).total_amount_due = hdfcTotalField text
     ∧ (parse_hdfc text).transactions = hdfcTxField text)
  ∧ ((find_pattern text chaseCardRx 1 = none → (parse_chase text).card_last_4_digits = none)
     ∧ (find_pattern text chaseBillRx 1 = none → (parse_chase text).billing_period = none)
     ∧ (find_pattern text chaseDueRx 1 = none → (parse_chase text).payment_due_date = none)
     ∧ (find_pattern text chaseTotRx 1 = none → (parse_chase text).total_amount_due = none)
     ∧ (parse_chase text).card_last_4_digits = chaseCardField text
     ∧ (parse_chase text).billing_period = chaseBillingField text
     ∧ (parse_chase text).payment_due_date = chaseDueField text
     ∧ (parse_chase text).total_amount_due = chaseTotalField text
     ∧ (parse_chase text).transactions = chaseTxField text) := by
  constructor
  · refine ⟨?_, ?_, ?_, ?_, rfl, rfl, rfl, rfl, rfl⟩
    · intro h
      show hdfcCardField text = none
      unfold hdfcCardField
      rw [h]
      rfl
    · intro h1 h2
      show hdfcBillingField text = none
      unfold hdfcBillingField
      rw [h1, h2]
      rfl
    · intro h
      show hdfcDueField text = none
      unfold hdfcDueField
      rw [h]
      rfl
    · intro h1 h2
      show hdfcTotalField text = none
      unfold hdfcTotalField
      rw [h1, h2]
      rfl
  · refine ⟨?_, ?_, ?_, ?_, rfl, rfl, rfl, rfl, rfl⟩
    · intro h
      show chaseCardField text = none
      unfold chaseCardField
      rw [h]
      rfl
    · intro h
      show chaseBillingField text = none
      unfold chaseBillingField
      rw [h]
      rfl
    · intro h
      show chaseDueField text = none
      unfold chaseDueField
      rw [h]
      rfl
    · intro h
      show chaseTotalField text = none
      unfold chaseTotalField
      rw [h]
      rfl

/-- C8 witness: on a text with no card-number anchor, the card field is
absent while the billing period is still extracted as usual (and is in fact
populated). -/
theorem C8_field_independence_witness :
    (parse_hdfc hdfcNoCardText).card_last_4_digits = none
    ∧ (parse_hdfc hdfcNoCardText).billing_period = hdfcBillingField hdfcNoCardText
    ∧ hdfcBillingField hdfcNoCardText = some "23/10/2024" :=
  ⟨(C8_field_independence hdfcNoCardText).1.1 (by decide),
   (C8_field_independence hdfcNoCardText).1.2.2.2.2.2.1,
   by decide⟩

/-- C9: per grammar, a text containing no substring matching that grammar's
own date-token format produces zero transactions (and the grammar returns
normally — the embedded parsers are total).  Each grammar's conclusion
depends only on the absence of its own date token. -/
theorem C9_no_date_no_transactions (text : String) :
    (noTokenB dateDMY hdfcTxRx text.data = true → (parse_hdfc text).transactions = [])
  ∧ (noTokenB chaseDateRx chaseTxRx text.data = true → (parse_chase text).transactions = []) := by
  constructor
  · intro hH
    show (finditer hdfcTxRx text.data).map markedTxOfCaps = []
    have h := finditer_nil_of_noToken dateDMY markedTxRest text.data (noTokenB_to hH)
    rw [show finditer hdfcTxRx text.data
        = finditer (.seq (.grp 1 dateDMY) markedTxRest) text.data from rfl, h]
    rfl
  · intro hC
    show (finditer chaseTxRx text.data).map plainTxOfCaps = []
    have h := finditer_nil_of_noToken chaseDateRx plainTxRest text.data (noTokenB_to hC)
    rw [show finditer chaseTxRx text.data
        = finditer (.seq (.grp 1 chaseDateRx) plainTxRest) text.data from rfl, h]
    rfl

/-- C9 witness: the HDFC and CHASE scanners find nothing on a
transaction-shaped line carrying no date token, and the HDFC conclusion also
follows on a text that does carry a CHASE-style dd/dd token but no HDFC
dd/dd/dddd token. -/
theorem C9_no_date_no_transactions_witness :
    (parse_hdfc noDateText).transactions = []
    ∧ (parse_chase noDateText).transactions = []
    ∧ (parse_hdfc "11/05 SHOP 12.34").transactions = [] :=
  ⟨(C9_no_date_no_transactions noDateText).1 (by decide),
   (C9_no_date_no_transactions noDateText).2 (by decide),
   (C9_no_date_no_transactions "11/05 SHOP 12.34").1 (by decide)⟩

/-- Every scanner capture record of a pattern whose group 3 is the amount
pattern carries a group-3 capture accepted by the amount pattern and free of
whitespace. -/
theorem amount_capture_shape {r : Rx} {l : List Char} {c : Caps}
    (hmem : c ∈ finditer r l)
    (hmust : 3 ∈ mustGrps r) (hbody : grpBodies 3 r = [amountRx]) :
    ∃ g, c.lookup 3 = some g ∧ Accepts amountRx g ∧ (∀ ch ∈ g, isSp ch = false) := by
  obtain ⟨s₀, rest, hx⟩ := finditer_mem hmem
  obtain ⟨_, hcap, hmustp⟩ := matchRx_sound _ r s₀ (c, rest) hx
  obtain ⟨g₀, hg₀⟩ := hmustp 3 hmust
  obtain ⟨g, hlk⟩ := mem_lookup_isSome hg₀
  have hmem3 : (3, g) ∈ c := lookup_mem hlk
  obtain ⟨bd, hbd, hbacc⟩ := hcap 3 g hmem3
  rw [hbody, List.mem_singleton] at hbd
  subst hbd
  exact ⟨g, hlk, hbacc, accepts_chars hbacc amount_no_sp⟩

theorem endsCents_of_marked {c : Caps} {g : List Char}
    (hlk : c.lookup 3 = some g) (hacc : Accepts amountRx g)
    (hnosp : ∀ ch ∈ g, isSp ch = false) :
    EndsCents (markedTxOfCaps c).amount := by
  have hcap : capAmt c = String.mk g := by
    unfold capAmt
    rw [hlk]
    show pyStrip (String.mk g) = _
    unfold pyStrip
    rw [show (String.mk g).data = g from rfl, stripL_of_no_sp hnosp]
  obtain ⟨pre, d₁, d₂, hg, h1, h2⟩ := accepts_amount_shape hacc
  rcases markedSign_holds c with ⟨_, hamt⟩ | ⟨_, hamt⟩
  · refine ⟨'-' :: pre, d₁, d₂, ?_, h1, h2⟩
    rw [hamt, hcap]
    rw [show ("-" ++ String.mk g).data = '-' :: g from rfl, hg]
    rfl
  · refine ⟨pre, d₁, d₂, ?_, h1, h2⟩
    rw [hamt, hcap]
    rw [show (String.mk g).data = g from rfl, hg]

theorem endsCents_of_plain {c : Caps} {g : List Char}
    (hlk : c.lookup 3 = some g) (hacc : Accepts amountRx g)
    (hnosp : ∀ ch ∈ g, isSp ch = false) :
    EndsCents (plainTxOfCaps c).amount := by
  have hcap : capAmt c = String.mk g := by
    unfold capAmt
    rw [hlk]
    show pyStrip (String.mk g) = _
    unfold pyStrip
    rw [show (String.mk g).data = g from rfl, stripL_of_no_sp hnosp]
  obtain ⟨pre, d₁, d₂, hg, h1, h2⟩ := accepts_amount_shape hacc
  refine ⟨pre, d₁, d₂, ?_, h1, h2⟩
  rw [plainAmt_holds, hcap]
  rw [show (String.mk g).data = g from rfl, hg]

/-- C10: in all five grammars, every output transaction's amount string ends
with a decimal point followed by exactly two digits (with an optional leading
minus sign), because the amount capture group requires a two-digit fractional
part; a candidate line without it never produces a transaction. -/
theorem C10_amount_cents (text : String) :
    (∀ t ∈ (parse_hdfc text).transactions, EndsCents t.amount)
  ∧ (∀ t ∈ (parse_axis text).transactions, EndsCents t.amount)
  ∧ (∀ t ∈ (parse_chase text).transactions, EndsCents t.amount)
  ∧ (∀ t ∈ (parse_icici text).transactions, EndsCents t.amount)
  ∧ (∀ t ∈ (parse_idfc text).transactions, EndsCents t.amount) := by
  refine ⟨?_, ?_, ?_, ?_, ?_⟩
  · intro t ht
    obtain ⟨c, hc, rfl⟩ := List.mem_map.mp (show t ∈ (finditer hdfcTxRx text.data).map markedTxOfCaps from ht)
    obtain ⟨g, hlk, hacc, hnosp⟩ := amount_capture_shape hc (by decide) rfl
    exact endsCents_of_marked hlk hacc hnosp
  · intro t ht
    obtain ⟨c, hc, rfl⟩ := List.mem_map.mp (show t ∈ (finditer axisTxRx text.data).map markedTxOfCaps from ht)
    obtain ⟨g, hlk, hacc, hnosp⟩ := amount_capture_shape hc (by decide) rfl
    exact endsCents_of_marked hlk hacc hnosp
  · intro t ht
    obtain ⟨c, hc, rfl⟩ := List.mem_map.mp (show t ∈ (finditer chaseTxRx text.data).map plainTxOfCaps from ht)
    obtain ⟨g, hlk, hacc, hnosp⟩ := amount_capture_shape hc (by decide) rfl
    exact endsCents_of_plain hlk hacc hnosp
  · intro t ht
    obtain ⟨c, hc, rfl⟩ := List.mem_map.mp (show t ∈ (finditer iciciTxRx text.data).map plainTxOfCaps from ht)
    obtain ⟨g, hlk, hacc, hnosp⟩ := amount_capture_shape hc (by decide) rfl
    exact endsCents_of_plain hlk hacc hnosp
  · intro t ht
    obtain ⟨c, hc, rfl⟩ := List.mem_map.mp (show t ∈ (finditer idfcTxRx text.data).map plainTxOfCaps from ht)
    obtain ⟨g, hlk, hacc, hnosp⟩ := amount_capture_shape hc (by decide) rfl
    exact endsCents_of_plain hlk hacc hnosp

/-- C10 witness at a concrete transaction of a concrete text. -/
theorem C10_amount_cents_witness : EndsCents "12.34" :=
  (C10_amount_cents tinyTxText).1 ⟨"01/11/2024", "SHOP", "12.34"⟩ (by decide)

/-- C1: full evaluation of assembly on the specification's HDFC sample
fragment.  The code extracts the FIRST four digits after the "Card No:"
anchor ("4341", not the last four "3388" that the field name and the
card-last-4-digits strategy describe), and the transaction heuristic also
matches the summary row "12/11/2024 83,794.00 4,240.00", producing a second,
spurious transaction; issuer, billing period, due date and total amount come
out as the specification says. -/
theorem C1_hdfc_sample_divergence :
    assemble hdfcSampleText = Except.ok
      { issuer := "HDFC", card_last_4_digits := some "4341",
        billing_period := some "23/10/2024", payment_due_date := some "12/11/2024",
        total_amount_due := some "₹83,794.00",
        transactions := [⟨"12/11/2024", "83,794.00", "4,240.00"⟩,
                         ⟨"23/10/2024", "SOME MERCHANT", "-1,234.56"⟩] }
    ∧ (parse_hdfc hdfcSampleText).card_last_4_digits ≠ some "3388"
    ∧ (parse_hdfc hdfcSampleText).transactions.length ≠ 1 := by
  decide

end CCStmt
